import Mathlib

/-!
Verification of project-simple: pagination contract, car service and rate limiter.

A shallow embedding of

* `internal/domain/dto/car_dto.go` (`PaginationRequest` and its methods),
* `internal/service/car_service.go` (`carService`),
* `internal/middleware/rate_limit.go` (`rateLimiter`, `RateLimit`),

followed by the properties established about them.

Go's `int` is the 64-bit two's-complement integer of the supported targets; it is
modelled by `Int` together with `wrapInt64` wherever arithmetic can overflow.
-/

/-! ## Machine integers -/

/-- Reduction of a mathematical integer to the value a Go `int`/`int64` holds after a
wrapping operation (two's complement, 64 bits). -/
def wrapInt64 (x : Int) : Int := (x + 2 ^ 63) % 2 ^ 64 - 2 ^ 63

/-- The values a Go `int`/`int64` can hold. -/
def isInt64 (x : Int) : Prop := -(2 ^ 63) ≤ x ∧ x < 2 ^ 63

instance (x : Int) : Decidable (isInt64 x) := by unfold isInt64; infer_instance

namespace dto

/-! ## `internal/domain/dto/car_dto.go` -/

def DefaultPage : Int := 1
def DefaultPageSize : Int := 10
def MaxPageSize : Int := 100

/-- The Go struct `PaginationRequest`. -/
structure PaginationRequest where
  Page : Int
  PageSize : Int
  SortBy : String
  SortDir : String
deriving DecidableEq, Repr

/-- The Go method `(*PaginationRequest).SetDefaults`: five consecutive `if` statements, each
acting on the result of the previous ones. -/
def PaginationRequest.SetDefaults (p : PaginationRequest) : PaginationRequest :=
  let p := if p.Page < 1 then { p with Page := DefaultPage } else p
  let p := if p.PageSize < 1 then { p with PageSize := DefaultPageSize } else p
  let p := if p.PageSize > MaxPageSize then { p with PageSize := MaxPageSize } else p
  let p := if p.SortBy = "" then { p with SortBy := "created_at" } else p
  let p := if p.SortDir = "" then { p with SortDir := "desc" } else p
  p

/-- The Go method `(*PaginationRequest).GetOffset`: `(p.Page - 1) * p.PageSize` in wrapping
64-bit arithmetic. -/
def PaginationRequest.GetOffset (p : PaginationRequest) : Int :=
  wrapInt64 (wrapInt64 (p.Page - 1) * p.PageSize)

/-- The map literal `allowedColumns` of `GetOrderBy`. -/
def allowedColumns : List (String × String) :=
  [("name", "name"), ("engine_version", "engine_version"), ("created_at", "created_at")]

/-- The Go method `(*PaginationRequest).GetOrderBy`; `fmt.Sprintf("%s %s", column, direction)`
is the two strings joined by one space. -/
def PaginationRequest.GetOrderBy (p : PaginationRequest) : String :=
  let column :=
    match allowedColumns.lookup p.SortBy with
    | some column => column
    | none => "created_at"
  let direction := if p.SortDir = "asc" then "ASC" else "DESC"
  column ++ " " ++ direction

/-- The sort columns of the whitelist. -/
def sortFields : List String := ["name", "engine_version", "created_at"]

/-- The sort directions of the query contract. -/
def sortDirections : List String := ["asc", "desc"]

/-- The six strings `GetOrderBy` can build from the whitelist and the two directions. -/
def orderByClauses : List String :=
  ["name ASC", "name DESC", "engine_version ASC", "engine_version DESC",
   "created_at ASC", "created_at DESC"]

end dto

/-! ## IEEE 754 binary64 arithmetic, as used by `GetAllCars`

A finite `float64` is the rational number it denotes.  `GetAllCars` converts two integers,
divides them once and takes the ceiling; the magnitudes that occur are zero or lie between
`2 ^ (-7)` and `2 ^ 63`, far from overflow. -/

namespace float64

/-- The number of halvings that bring `n` below `2`, at most `fuel` of them. -/
def log2Fuel : Nat → Nat → Nat
  | 0, _ => 0
  | fuel + 1, n => if n < 2 then 0 else log2Fuel fuel (n / 2) + 1

/-- The position of the leading bit of `n`: `2 ^ log2 n ≤ n < 2 ^ (log2 n + 1)` for `n > 0`. -/
def log2 (n : Nat) : Nat := log2Fuel n n

/-- The exponent `e` with `2 ^ e ≤ q < 2 ^ (e + 1)`, for `q > 0`. -/
def exponent (q : ℚ) : Int :=
  let e : Int := (log2 q.num.natAbs : Int) - (log2 q.den : Int)
  if q < (2 : ℚ) ^ e then e - 1 else e

/-- Rounding of a rational to the nearest integer, ties to the even one. -/
def roundHalfEven (m : ℚ) : Int :=
  let f := ⌊m⌋
  let r := m - f
  if r < 1 / 2 then f
  else if 1 / 2 < r then f + 1
  else if f % 2 = 0 then f else f + 1

/-- The binary64 value nearest to `q` (round to nearest, ties to even): 53 significant bits,
with the fixed spacing `2 ^ (-1074)` below the normal range. -/
def round (q : ℚ) : ℚ :=
  if q = 0 then 0
  else
    let a := |q|
    let ulp : ℚ := (2 : ℚ) ^ (max (exponent a) (-1022) - 52)
    let r : ℚ := (roundHalfEven (a / ulp) : ℚ) * ulp
    if q < 0 then -r else r

/-- The conversion `float64(n)` of an integer. -/
def ofInt (n : Int) : ℚ := round (n : ℚ)

/-- The division `x / y` of two `float64` values, `y` non-zero. -/
def div (x y : ℚ) : ℚ := round (x / y)

/-- The function `math.Ceil`; the ceiling of a binary64 value is again one. -/
def Ceil (x : ℚ) : ℚ := (⌈x⌉ : ℚ)

/-- The conversion `int(x)`: the fraction is discarded.  A value outside the range of `int` has
an implementation-specific result in Go; the one of amd64 is taken here. -/
def toInt (x : ℚ) : Int :=
  let t : Int := if 0 ≤ x then ⌊x⌋ else ⌈x⌉
  if isInt64 t then t else -(2 ^ 63)

end float64

/-! ## Errors

A Go `error` value.  The two sentinels named `ErrCarNotFound` are distinct values (each is
created by its own `errors.New`), `other` stands for any further base error and `wrap` for an
error whose `Unwrap` yields `inner`. -/

inductive GoError where
  | repositoryErrCarNotFound
  | serviceErrCarNotFound
  | other (msg : String)
  | wrap (msg : String) (inner : GoError)
deriving DecidableEq, Repr

namespace errors

/-- The function `errors.Is`: `err` or an error in its `Unwrap` chain is the target. -/
def Is : GoError → GoError → Bool
  | .wrap msg inner, target =>
      if GoError.wrap msg inner = target then true else Is inner target
  | err, target => decide (err = target)

end errors

namespace repository

/-- The sentinel `repository.ErrCarNotFound`. -/
def ErrCarNotFound : GoError := .repositoryErrCarNotFound

end repository

/-! ## `internal/domain/entity/car.go` -/

/-- A `uuid.UUID`, sixteen bytes read as a number; `uuid.Nil` is zero. -/
abbrev UUID := Nat

/-- A `time.Time` instant. -/
abbrev Time := Int

namespace entity

/-- The Go struct `entity.Car`; `DeletedAt` is the nullable deletion timestamp. -/
structure Car where
  ID : UUID
  Name : String
  EngineVersion : String
  CreatedAt : Time
  UpdatedAt : Time
  DeletedAt : Option Time
deriving DecidableEq, Repr

end entity

namespace dto

structure CreateCarRequest where
  Name : String
  EngineVersion : String
deriving DecidableEq, Repr

structure UpdateCarRequest where
  Name : String
  EngineVersion : String
deriving DecidableEq, Repr

structure CarResponse where
  ID : UUID
  Name : String
  EngineVersion : String
  CreatedAt : String
  UpdatedAt : String
deriving DecidableEq, Repr

structure PaginationMeta where
  CurrentPage : Int
  PageSize : Int
  TotalPages : Int
  TotalRecords : Int
deriving DecidableEq, Repr

structure PaginatedResponse where
  Data : List CarResponse
  Pagination : PaginationMeta
deriving DecidableEq, Repr

end dto

/-! ## `internal/repository/car_repository.go`: the gateway interface

The interface `CarRepository` over a store state `σ`.  A method returning `(value, error)` is
an `Except`; a method returning only `error` gives `none` for `nil`.  `Create` receives the
record by pointer and stamps it, so it returns the record as it left it.  `FindAll` and
`Update` receive pointers as well; the implementations only read through them. -/

namespace repository

structure CarRepository (σ : Type) where
  Create : entity.Car → σ → (entity.Car × Option GoError) × σ
  FindByID : UUID → σ → Except GoError entity.Car × σ
  FindAll : dto.PaginationRequest → σ → Except GoError (List entity.Car × Int) × σ
  Update : entity.Car → σ → Option GoError × σ
  Delete : UUID → σ → Option GoError × σ
  ExistsByID : UUID → σ → (Bool × Option GoError) × σ

/-- A call received by the gateway, with its argument. -/
inductive Call where
  | Create (car : entity.Car)
  | FindByID (id : UUID)
  | FindAll (pagination : dto.PaginationRequest)
  | Update (car : entity.Car)
  | Delete (id : UUID)
  | ExistsByID (id : UUID)
deriving DecidableEq, Repr

/-- The gateway `repo` together with a journal of the calls it received, oldest first. -/
def CarRepository.recording {σ : Type} (repo : CarRepository σ) :
    CarRepository (σ × List Call) where
  Create := fun car s => ((repo.Create car s.1).1, (repo.Create car s.1).2, s.2 ++ [.Create car])
  FindByID := fun id s => ((repo.FindByID id s.1).1, (repo.FindByID id s.1).2, s.2 ++ [.FindByID id])
  FindAll := fun p s => ((repo.FindAll p s.1).1, (repo.FindAll p s.1).2, s.2 ++ [.FindAll p])
  Update := fun car s => ((repo.Update car s.1).1, (repo.Update car s.1).2, s.2 ++ [.Update car])
  Delete := fun id s => ((repo.Delete id s.1).1, (repo.Delete id s.1).2, s.2 ++ [.Delete id])
  ExistsByID := fun id s =>
    ((repo.ExistsByID id s.1).1, (repo.ExistsByID id s.1).2, s.2 ++ [.ExistsByID id])

end repository

/-! ## `internal/service/car_service.go` -/

namespace service

open repository (CarRepository)

/-- The sentinel `service.ErrCarNotFound`. -/
def ErrCarNotFound : GoError := .serviceErrCarNotFound

/-- The layout string handed to `time.Time.Format` by `entityToResponse`. -/
def timeLayout : String := "2006-01-02T15:04:05Z07:00"

/-- The Go method `carService.entityToResponse`; `format` is `time.Time.Format`. -/
def entityToResponse (format : Time → String → String) (car : entity.Car) : dto.CarResponse :=
  { ID := car.ID
    Name := car.Name
    EngineVersion := car.EngineVersion
    CreatedAt := format car.CreatedAt timeLayout
    UpdatedAt := format car.UpdatedAt timeLayout }

/-- The expression `int(math.Ceil(float64(total) / float64(pagination.PageSize)))`. -/
def totalPages (total pageSize : Int) : Int :=
  float64.toInt (float64.Ceil (float64.div (float64.ofInt total) (float64.ofInt pageSize)))

variable {σ : Type}

/-- The Go method `carService.CreateCar`. -/
def CreateCar (format : Time → String → String) (carRepo : CarRepository σ)
    (req : dto.CreateCarRequest) (s : σ) : Except GoError dto.CarResponse × σ :=
  let car : entity.Car :=
    { ID := 0, Name := req.Name, EngineVersion := req.EngineVersion,
      CreatedAt := 0, UpdatedAt := 0, DeletedAt := none }
  match carRepo.Create car s with
  | ((_, some err), s) => (.error err, s)
  | ((car, none), s) => (.ok (entityToResponse format car), s)

/-- The Go method `carService.GetCarByID`. -/
def GetCarByID (format : Time → String → String) (carRepo : CarRepository σ)
    (id : UUID) (s : σ) : Except GoError dto.CarResponse × σ :=
  match carRepo.FindByID id s with
  | (.error err, s) =>
      if errors.Is err repository.ErrCarNotFound then (.error ErrCarNotFound, s)
      else (.error err, s)
  | (.ok car, s) => (.ok (entityToResponse format car), s)

/-- The Go method `carService.GetAllCars`. -/
def GetAllCars (format : Time → String → String) (carRepo : CarRepository σ)
    (pagination : dto.PaginationRequest) (s : σ) : Except GoError dto.PaginatedResponse × σ :=
  let pagination := pagination.SetDefaults
  match carRepo.FindAll pagination s with
  | (.error err, s) => (.error err, s)
  | (.ok (cars, total), s) =>
      let carResponses := cars.map (entityToResponse format)
      let totalPages := totalPages total pagination.PageSize
      (.ok { Data := carResponses
             Pagination :=
               { CurrentPage := pagination.Page
                 PageSize := pagination.PageSize
                 TotalPages := totalPages
                 TotalRecords := total } }, s)

/-- The Go method `carService.UpdateCar`. -/
def UpdateCar (format : Time → String → String) (carRepo : CarRepository σ)
    (id : UUID) (req : dto.UpdateCarRequest) (s : σ) : Except GoError dto.CarResponse × σ :=
  match carRepo.FindByID id s with
  | (.error err, s) =>
      if errors.Is err repository.ErrCarNotFound then (.error ErrCarNotFound, s)
      else (.error err, s)
  | (.ok car, s) =>
      let car := if req.Name ≠ "" then { car with Name := req.Name } else car
      let car :=
        if req.EngineVersion ≠ "" then { car with EngineVersion := req.EngineVersion } else car
      match carRepo.Update car s with
      | (some err, s) =>
          if errors.Is err repository.ErrCarNotFound then (.error ErrCarNotFound, s)
          else (.error err, s)
      | (none, s) =>
          match carRepo.FindByID id s with
          | (.error err, s) => (.error err, s)
          | (.ok updatedCar, s) => (.ok (entityToResponse format updatedCar), s)

/-- The Go method `carService.DeleteCar`. -/
def DeleteCar (carRepo : CarRepository σ) (id : UUID) (s : σ) : Option GoError × σ :=
  match carRepo.Delete id s with
  | (some err, s) =>
      if errors.Is err repository.ErrCarNotFound then (some ErrCarNotFound, s)
      else (some err, s)
  | (none, s) => (none, s)

end service

/-! ## `internal/repository/mocks/car_repository_mock.go`

The testify mock configured with fixed return values: the store state is the number of
`FindByID` calls answered so far, and the `k`-th such call returns the `k`-th configured value
(the `.Once()` expectations of the service tests), the last one repeating. -/

namespace mocks

structure MockCarRepository where
  onCreate : entity.Car → entity.Car × Option GoError
  onFindByID : List (Except GoError entity.Car)
  onFindAll : Except GoError (List entity.Car × Int)
  onUpdate : Option GoError
  onDelete : Option GoError
  onExistsByID : Bool × Option GoError

/-- The `k`-th configured answer of `FindByID`. -/
def MockCarRepository.findByIDAnswer (m : MockCarRepository) (k : Nat) :
    Except GoError entity.Car :=
  match m.onFindByID.get? k, m.onFindByID.getLast? with
  | some r, _ => r
  | none, some r => r
  | none, none => .error (.other "mock: no return value")

/-- The mock as a gateway. -/
def MockCarRepository.repo (m : MockCarRepository) : repository.CarRepository Nat where
  Create := fun car k => (m.onCreate car, k)
  FindByID := fun _ k => (m.findByIDAnswer k, k + 1)
  FindAll := fun _ k => (m.onFindAll, k)
  Update := fun _ k => (m.onUpdate, k)
  Delete := fun _ k => (m.onDelete, k)
  ExistsByID := fun _ k => (m.onExistsByID, k)

end mocks

/-! ## `internal/middleware/rate_limit.go` -/

namespace time

/-- The largest and the smallest `time.Duration`. -/
def maxDuration : Int := 2 ^ 63 - 1
def minDuration : Int := -(2 ^ 63)

/-- The method `Time.Sub` on two readings of the monotonic clock, in nanoseconds: the
difference, saturated to the range of `time.Duration`. -/
def Sub (t u : Int) : Int := max minDuration (min maxDuration (t - u))

end time

namespace http

/-- An `http.Header`, as the list of its `(key, value)` lines.  `net/http` files every key
under its canonical spelling, in `Get` and in `Set` alike; a key here stands for that canonical
spelling, and this repository always writes a given key with one and the same spelling. -/
abbrev Header := List (String × String)

/-- The method `Header.Get`: the first value under `key`, or the empty string. -/
def Header.Get (h : Header) (key : String) : String := (h.lookup key).getD ""

/-- The method `Header.Set`: the value under `key` becomes `value` alone. -/
def Header.Set (h : Header) (key value : String) : Header :=
  (key, value) :: h.filter (fun line => line.1 ≠ key)

/-- The part of `http.Request` the middleware reads. -/
structure Request where
  Method : String
  Header : Header
deriving DecidableEq, Repr

end http

namespace gin

/-- The part of `gin.Context` the middleware and handlers act on: the request, its client
address, the response header (`c.Writer.Header()`), the status and JSON body written so far
(the members of the top-level object), whether the chain has been aborted, the path parameters
and the values stored with `c.Set`. -/
structure Context where
  Request : http.Request
  ClientIP : String
  Writer : http.Header
  Status : Option Nat
  Body : List (String × String)
  Aborted : Bool
  Params : List (String × String) := []
  Keys : List (String × String) := []
deriving DecidableEq, Repr

/-- The method `Context.Param`: the value of the path parameter `key`, or the empty string. -/
def Context.Param (c : Context) (key : String) : String := (c.Params.lookup key).getD ""

/-- The method `Context.GetHeader`: `c.Request.Header.Get(key)`. -/
def Context.GetHeader (c : Context) (key : String) : String := c.Request.Header.Get key

/-- The method `Context.Set`: `value` is stored under `key` in `c.Keys`. -/
def Context.Set (c : Context) (key value : String) : Context :=
  { c with Keys := (key, value) :: c.Keys.filter (fun entry => entry.1 ≠ key) }

/-- The method `Context.Get`: the value stored under `key`, if there is one. -/
def Context.Get (c : Context) (key : String) : Option String := c.Keys.lookup key

/-- The method `Context.Status` (`c.Status(code)`): the status alone is set. -/
def Context.SetStatus (c : Context) (code : Nat) : Context := { c with Status := some code }

/-- The method `Context.AbortWithStatus`: the status is written and the chain aborted. -/
def Context.AbortWithStatus (c : Context) (code : Nat) : Context :=
  { c with Status := some code, Aborted := true }

/-- The method `Context.JSON` with a `gin.H` of string values. -/
def Context.JSON (c : Context) (code : Nat) (obj : List (String × String)) : Context :=
  { c with Status := some code, Body := obj }

/-- The method `Context.Abort`. -/
def Context.Abort (c : Context) : Context := { c with Aborted := true }

end gin

namespace http

def StatusTooManyRequests : Nat := 429

end http

namespace middleware

/-- The Go struct `visitor`. -/
structure visitor where
  lastSeen : Int
  count : Int
deriving DecidableEq, Repr

/-- The Go struct `rateLimiter`, without its mutex; the map `visitors` is a partial function. -/
structure rateLimiter where
  visitors : String → Option visitor
  rate : Int
  window : Int

/-- The constructor `newRateLimiter`, without the goroutine that calls `cleanup` on a ticker. -/
def newRateLimiter (rate window : Int) : rateLimiter :=
  { visitors := fun _ => none, rate := rate, window := window }

/-- The Go method `rateLimiter.cleanup`, run when the clock reads `now`. -/
def rateLimiter.cleanup (rl : rateLimiter) (now : Int) : rateLimiter :=
  { rl with
    visitors := fun ip =>
      match rl.visitors ip with
      | some v => if time.Sub now v.lastSeen > rl.window then none else some v
      | none => none }

/-- The Go method `rateLimiter.allow`, run when the clock reads `now`. -/
def rateLimiter.allow (rl : rateLimiter) (now : Int) (ip : String) : Bool × rateLimiter :=
  match rl.visitors ip with
  | none =>
      (true, { rl with
        visitors := fun k => if k = ip then some { lastSeen := now, count := 1 }
                             else rl.visitors k })
  | some v =>
      if time.Sub now v.lastSeen > rl.window then
        (true, { rl with
          visitors := fun k => if k = ip then some { lastSeen := now, count := 1 }
                               else rl.visitors k })
      else if v.count ≥ rl.rate then
        (false, rl)
      else
        (true, { rl with
          visitors := fun k => if k = ip then some { lastSeen := now, count := wrapInt64 (v.count + 1) }
                               else rl.visitors k })

/-- The handler returned by `RateLimit`, with the limiter it closes over made explicit; `next`
is the rest of the chain, run by `c.Next()`. -/
def RateLimit (limiter : rateLimiter) (now : Int) (next : gin.Context → gin.Context)
    (c : gin.Context) : gin.Context × rateLimiter :=
  let ip := c.ClientIP
  match limiter.allow now ip with
  | (false, limiter) =>
      let c := c.JSON http.StatusTooManyRequests
        [("error", "Rate Limit Exceeded"),
         ("message", "Too many requests. Please try again later.")]
      (c.Abort, limiter)
  | (true, limiter) => (next c, limiter)

/-- The limiter serving a sequence of requests `(time, address)` in order: the decision of
`allow` for each, and the final limiter. -/
def rateLimiter.serve (rl : rateLimiter) : List (Int × String) → List Bool × rateLimiter
  | [] => ([], rl)
  | (now, ip) :: rest =>
      let r := rl.allow now ip
      let rs := rateLimiter.serve r.2 rest
      (r.1 :: rs.1, rs.2)

end middleware

namespace middleware

/-- The context the middleware leaves for a rejected request: status 429 with the error body,
chain aborted. -/
def tooManyRequests (c : gin.Context) : gin.Context :=
  { c with
    Status := some 429
    Body := [("error", "Rate Limit Exceeded"),
             ("message", "Too many requests. Please try again later.")]
    Aborted := true }

/-- What the middleware meets: a request with its context, or a run of `cleanup` by the
ticker; each with the clock reading at that moment. -/
inductive Arrival where
  | request (now : Int) (c : gin.Context)
  | sweep (now : Int)
deriving DecidableEq, Repr

/-- The clock reading of an arrival. -/
def Arrival.now : Arrival → Int
  | .request now _ => now
  | .sweep now => now

/-- The requests of client address `ip` among the arrivals, with their times. -/
def requestsOf (ip : String) : List Arrival → List (Int × gin.Context)
  | [] => []
  | .request now c :: rest =>
      if c.ClientIP = ip then (now, c) :: requestsOf ip rest else requestsOf ip rest
  | .sweep _ :: rest => requestsOf ip rest

/-- Arrivals met in order by the middleware and the ticker, all on one limiter: for each
request whose client address is `ip`, the decision `allow` takes and the context the
middleware leaves. -/
def observe (ip : String) (next : gin.Context → gin.Context) :
    rateLimiter → List Arrival → List (Bool × gin.Context)
  | _, [] => []
  | limiter, .request now c :: rest =>
      let r := RateLimit limiter now next c
      if c.ClientIP = ip then
        ((limiter.allow now c.ClientIP).1, r.1) :: observe ip next r.2 rest
      else observe ip next r.2 rest
  | limiter, .sweep now :: rest => observe ip next (limiter.cleanup now) rest

/-- What happens to a limiter: a request arrives from an address, or the ticker runs `cleanup`;
each with the clock reading at that moment. -/
inductive Event where
  | request (now : Int) (ip : String)
  | sweep (now : Int)
deriving DecidableEq, Repr

/-- Bookkeeping about one address along a run: the time of the request that last set its count
to 1, and the time of its last allowed request. -/
structure History where
  windowStart : Option Int
  lastAllowed : Option Int
deriving DecidableEq, Repr

/-- The limiter after one event. -/
def rateLimiter.step (rl : rateLimiter) : Event → rateLimiter
  | .request now ip => (rl.allow now ip).2
  | .sweep now => rl.cleanup now

/-- The bookkeeping for address `ip` after one event met by the limiter `rl`. -/
def History.step (ip : String) (rl : rateLimiter) (h : History) : Event → History
  | .request now a =>
      if a = ip ∧ (rl.allow now a).1 = true then
        { windowStart :=
            if ((rl.allow now a).2.visitors ip).map (fun v => v.count) = some 1 then some now
            else h.windowStart
          lastAllowed := some now }
      else h
  | .sweep _ => h

/-- A limiter and the bookkeeping for `ip` after a sequence of events. -/
def run (ip : String) : rateLimiter × History → List Event → rateLimiter × History
  | st, [] => st
  | st, e :: rest => run ip (st.1.step e, st.2.step ip st.1 e) rest

/-- The limiter and bookkeeping for `ip` reached from a new limiter by a sequence of events. -/
def reach (rate window : Int) (ip : String) (events : List Event) : rateLimiter × History :=
  run ip (newRateLimiter rate window, { windowStart := none, lastAllowed := none }) events

/-- Along a run, the entry of `ip`, while there is one, carries the time of the last allowed
request of `ip`, and the window is the configured one. -/
def History.agrees (ip : String) (window : Int) (st : rateLimiter × History) : Prop :=
  st.1.window = window ∧ ∀ v, st.1.visitors ip = some v → st.2.lastAllowed = some v.lastSeen

end middleware

/-! ## `internal/middleware/cors.go` -/

namespace middleware

/-- The loop of `CORS` over `allowedOrigins`, left at the first entry that is `*` or equals
`origin`: the context and the flag `allowed` after the loop. -/
def CORS.checkOrigin (origin : String) (c : gin.Context) : List String → gin.Context × Bool
  | [] => (c, false)
  | allowedOrigin :: rest =>
      if allowedOrigin = "*" then
        ({ c with Writer := c.Writer.Set "Access-Control-Allow-Origin" "*" }, true)
      else if origin = allowedOrigin then
        ({ c with
            Writer := (c.Writer.Set "Access-Control-Allow-Origin" origin).Set
              "Access-Control-Allow-Credentials" "true" }, true)
      else CORS.checkOrigin origin c rest

/-- The value `CORS` gives to `Access-Control-Allow-Headers`. -/
def CORS.allowHeaders : String :=
  "Content-Type, Content-Length, Accept-Encoding, X-CSRF-Token, Authorization, accept, origin, Cache-Control, X-Requested-With, X-Request-ID"

/-- The value `CORS` gives to `Access-Control-Allow-Methods`. -/
def CORS.allowMethods : String := "POST, OPTIONS, GET, PUT, DELETE, PATCH"

/-- The three unconditional `Header().Set` calls of `CORS`, after the origin check. -/
def CORS.setHeaders (c : gin.Context) : gin.Context :=
  let c := { c with Writer := c.Writer.Set "Access-Control-Allow-Headers" CORS.allowHeaders }
  let c := { c with Writer := c.Writer.Set "Access-Control-Allow-Methods" CORS.allowMethods }
  let c := { c with Writer := c.Writer.Set "Access-Control-Max-Age" "86400" }
  c

/-- The part of the `CORS` handler after the origin check: the three headers, then the
short-circuit of `OPTIONS` or the rest of the chain. -/
def CORS.finish (next : gin.Context → gin.Context) (c : gin.Context) : gin.Context :=
  let c := CORS.setHeaders c
  if c.Request.Method = "OPTIONS" then c.AbortWithStatus 204
  else next c

/-- The handler returned by `CORS(allowedOrigins)`; `next` is the rest of the chain, run by
`c.Next()`. -/
def CORS (allowedOrigins : List String) (next : gin.Context → gin.Context)
    (c : gin.Context) : gin.Context :=
  let origin := c.Request.Header.Get "Origin"
  if origin = "" then
    CORS.finish next { c with Writer := c.Writer.Set "Access-Control-Allow-Origin" "*" }
  else
    match CORS.checkOrigin origin c allowedOrigins with
    | (c, allowed) =>
        if !allowed ∧ allowedOrigins.length > 0 then c.AbortWithStatus 403
        else CORS.finish next c

/-- The handler rejects the request: whatever the rest of the chain is, the outcome is the
incoming context aborted with 403; nothing else is written and the chain is not run. -/
def CORS.rejects (allowedOrigins : List String) (c : gin.Context) : Prop :=
  ∀ next, CORS allowedOrigins next c = c.AbortWithStatus 403

/-- The handler lets the request through with context `passed`: it runs the rest of the chain
on `passed`, or, for an `OPTIONS` request, aborts `passed` with 204 without running it. -/
def CORS.passesOn (allowedOrigins : List String) (c passed : gin.Context) : Prop :=
  ∀ next, CORS allowedOrigins next c =
    if c.Request.Method = "OPTIONS" then passed.AbortWithStatus 204 else next passed

/-- The condition under which the origin check fails: an `Origin` is given, the allow-list is
not empty, and no entry is that origin or `*`. -/
def CORS.originRefused (allowedOrigins : List String) (c : gin.Context) : Prop :=
  c.Request.Header.Get "Origin" ≠ "" ∧ allowedOrigins ≠ [] ∧
    ∀ entry ∈ allowedOrigins, entry ≠ c.Request.Header.Get "Origin" ∧ entry ≠ "*"

instance (allowedOrigins : List String) (c : gin.Context) :
    Decidable (CORS.originRefused allowedOrigins c) := by
  unfold CORS.originRefused; infer_instance

end middleware

/-! ## `internal/middleware/request_id.go` -/

namespace middleware

/-- The handler returned by `RequestID()`; `generated` is the value of `uuid.New().String()`
and `next` the rest of the chain. -/
def RequestID (generated : String) (next : gin.Context → gin.Context)
    (c : gin.Context) : gin.Context :=
  let requestID := c.GetHeader "X-Request-ID"
  let requestID := if requestID = "" then generated else requestID
  let c := c.Set "request_id" requestID
  let c := { c with Writer := c.Writer.Set "X-Request-ID" requestID }
  next c

end middleware

/-! ## Observation of the rate limiter over a run -/

namespace middleware

/-- The clock reading of an event. -/
def Event.now : Event → Int
  | .request now _ => now
  | .sweep now => now

/-- The number of requests from `ip` that `allow` accepts at a time in the interval
`[a, b]`, along a run of events from the limiter `rl`. -/
def allowedCount (ip : String) (a b : Int) : rateLimiter → List Event → Nat
  | _, [] => 0
  | rl, .request now addr :: rest =>
      (if addr = ip ∧ (rl.allow now addr).1 = true ∧ a ≤ now ∧ now ≤ b then 1 else 0) +
        allowedCount ip a b (rl.allow now addr).2 rest
  | rl, .sweep now :: rest => allowedCount ip a b (rl.cleanup now) rest

/-- Whether an event is a request. -/
def Event.isRequest : Event → Bool
  | .request _ _ => true
  | .sweep _ => false

/-- What the requests of a run observe: for each request, the decision of `allow` and the
entry (count and timestamp) of the requesting address after it. -/
def trace : rateLimiter → List Event → List (Bool × Option visitor)
  | _, [] => []
  | rl, .request now ip :: rest =>
      ((rl.allow now ip).1, (rl.allow now ip).2.visitors ip) :: trace (rl.allow now ip).2 rest
  | rl, .sweep now :: rest => trace (rl.cleanup now) rest

/-- The limiter `swept` is the limiter `kept` after a sweep at time `s` may have removed
entries: both agree on rate and window, and at every address they hold the same entry, or
`swept` holds none where `kept` holds one that a sweep at time `s` removes. -/
def sweptAt (s : Int) (swept kept : rateLimiter) : Prop :=
  swept.rate = kept.rate ∧ swept.window = kept.window ∧
  ∀ ip, swept.visitors ip = kept.visitors ip ∨
    (swept.visitors ip = none ∧
      ∃ v, kept.visitors ip = some v ∧ time.Sub s v.lastSeen > kept.window)

end middleware

/-! ## `internal/repository/car_repository.go`: the gateway over the store

The store is gorm's `*gorm.DB`, reached through the seven query chains `carRepository`
builds; each is a function of the values the chain is given. -/

namespace gorm

/-- The fields of `*gorm.DB` read after `Updates` and `Delete`. -/
structure Result where
  Error : Option GoError
  RowsAffected : Int
deriving DecidableEq, Repr

/-- The sentinel `gorm.ErrRecordNotFound`. -/
def ErrRecordNotFound : GoError := .other "record not found"

/-- The query chains of `carRepository` on a store with state `σ`:
`Create(car)`, `Where("id = ?", id).First(&car)`, `Model(&entity.Car{}).Count(&total)`,
`Order(order).Limit(limit).Offset(offset).Find(&cars)`,
`Model(&entity.Car{}).Where("id = ?", id).Updates(name, engine_version)`,
`Where("id = ?", id).Delete(&entity.Car{})` and
`Model(&entity.Car{}).Where("id = ?", id).Count(&count)`. -/
structure DB (σ : Type) where
  Create : entity.Car → σ → (entity.Car × Option GoError) × σ
  First : UUID → σ → Except GoError entity.Car × σ
  Count : σ → (Int × Option GoError) × σ
  Find : String → Int → Int → σ → (List entity.Car × Option GoError) × σ
  Updates : UUID → String → String → σ → Result × σ
  Delete : UUID → σ → Result × σ
  CountByID : UUID → σ → (Int × Option GoError) × σ

end gorm

namespace repository

variable {σ : Type}

/-- The Go method `carRepository.Create`. -/
def carRepository.Create (db : gorm.DB σ) (car : entity.Car) (s : σ) :
    (entity.Car × Option GoError) × σ :=
  db.Create car s

/-- The Go method `carRepository.FindByID`. -/
def carRepository.FindByID (db : gorm.DB σ) (id : UUID) (s : σ) :
    Except GoError entity.Car × σ :=
  match db.First id s with
  | (.error err, s) =>
      if errors.Is err gorm.ErrRecordNotFound then (.error ErrCarNotFound, s)
      else (.error err, s)
  | (.ok car, s) => (.ok car, s)

/-- The Go method `carRepository.FindAll`. -/
def carRepository.FindAll (db : gorm.DB σ) (pagination : dto.PaginationRequest) (s : σ) :
    Except GoError (List entity.Car × Int) × σ :=
  match db.Count s with
  | ((_, some err), s) => (.error err, s)
  | ((total, none), s) =>
      match db.Find pagination.GetOrderBy pagination.PageSize pagination.GetOffset s with
      | ((_, some err), s) => (.error err, s)
      | ((cars, none), s) => (.ok (cars, total), s)

/-- The Go method `carRepository.Update`. -/
def carRepository.Update (db : gorm.DB σ) (car : entity.Car) (s : σ) : Option GoError × σ :=
  match db.Updates car.ID car.Name car.EngineVersion s with
  | (result, s) =>
      if result.Error ≠ none then (result.Error, s)
      else if result.RowsAffected = 0 then (some ErrCarNotFound, s)
      else (none, s)

/-- The Go method `carRepository.Delete`. -/
def carRepository.Delete (db : gorm.DB σ) (id : UUID) (s : σ) : Option GoError × σ :=
  match db.Delete id s with
  | (result, s) =>
      if result.Error ≠ none then (result.Error, s)
      else if result.RowsAffected = 0 then (some ErrCarNotFound, s)
      else (none, s)

/-- The Go method `carRepository.ExistsByID`. -/
def carRepository.ExistsByID (db : gorm.DB σ) (id : UUID) (s : σ) :
    (Bool × Option GoError) × σ :=
  match db.CountByID id s with
  | ((count, err), s) => ((decide (count > 0), err), s)

/-- The constructor `NewCarRepository`. -/
def NewCarRepository (db : gorm.DB σ) : CarRepository σ where
  Create := carRepository.Create db
  FindByID := carRepository.FindByID db
  FindAll := carRepository.FindAll db
  Update := carRepository.Update db
  Delete := carRepository.Delete db
  ExistsByID := carRepository.ExistsByID db

end repository

/-! ## `internal/router/router.go` -/

namespace time

/-- The constant `time.Minute`, in nanoseconds. -/
def Minute : Int := 60 * 1000000000

end time

namespace gin

/-- A middleware of this repository as registered on the engine, with its arguments. -/
inductive HandlerFunc where
  | Recovery
  | RequestID
  | Logger
  | SecurityHeaders
  | CORS (allowedOrigins : List String)
  | RequestSizeLimit (maxBytes : Int)
  | ErrorHandler
  | RateLimit (rate : Int) (window : Int)
deriving DecidableEq, Repr

/-- The middleware chain of a `gin.Engine`: handlers run in the order of the list, each
around the ones after it. -/
structure Engine where
  Handlers : List HandlerFunc
deriving DecidableEq, Repr

/-- The constructor `gin.New`: an engine without middleware. -/
def New : Engine := { Handlers := [] }

/-- The method `Engine.Use`: the middleware is appended to the chain. -/
def Engine.Use (engine : Engine) (middleware : HandlerFunc) : Engine :=
  { engine with Handlers := engine.Handlers ++ [middleware] }

end gin

namespace config

structure ServerConfig where
  Port : String
  Env : String
  AllowedOrigins : List String
deriving DecidableEq, Repr

/-- The part of `config.Config` read by `SetupRouter`. -/
structure Config where
  Server : ServerConfig
deriving DecidableEq, Repr

end config

namespace router

/-- The middleware registrations of `SetupRouter`, in the order of its `router.Use` calls. -/
def SetupRouter (cfg : config.Config) : gin.Engine :=
  let router := gin.New
  let router := router.Use .Recovery
  let router := router.Use .RequestID
  let router := router.Use .Logger
  let router := router.Use .SecurityHeaders
  let router := router.Use (.CORS cfg.Server.AllowedOrigins)
  let router := router.Use (.RequestSizeLimit (2 ^ 20))
  let router := router.Use .ErrorHandler
  let router := router.Use (.RateLimit 100 time.Minute)
  router

end router

/-! ## `internal/service/car_service.go`: the service interface -/

namespace service

/-- The Go interface `CarService`, over a store with state `σ`. -/
structure CarService (σ : Type) where
  CreateCar : dto.CreateCarRequest → σ → Except GoError dto.CarResponse × σ
  GetCarByID : UUID → σ → Except GoError dto.CarResponse × σ
  GetAllCars : dto.PaginationRequest → σ → Except GoError dto.PaginatedResponse × σ
  UpdateCar : UUID → dto.UpdateCarRequest → σ → Except GoError dto.CarResponse × σ
  DeleteCar : UUID → σ → Option GoError × σ

/-- The constructor `NewCarService`; `format` is `time.Time.Format`. -/
def NewCarService {σ : Type} (format : Time → String → String)
    (carRepo : repository.CarRepository σ) : CarService σ where
  CreateCar := service.CreateCar format carRepo
  GetCarByID := service.GetCarByID format carRepo
  GetAllCars := service.GetAllCars format carRepo
  UpdateCar := service.UpdateCar format carRepo
  DeleteCar := service.DeleteCar carRepo

end service

/-! ## `pkg/response` -/

namespace http

def StatusOK : Nat := 200
def StatusCreated : Nat := 201
def StatusNoContent : Nat := 204
def StatusBadRequest : Nat := 400
def StatusNotFound : Nat := 404
def StatusUnprocessableEntity : Nat := 422
def StatusInternalServerError : Nat := 500

end http

namespace response

structure ValidationError where
  Field : String
  Message : String
deriving DecidableEq, Repr

/-- A value the handlers pass to the response helpers as `interface{}`. -/
inductive Payload where
  | text (value : String)
  | validationErrors (errs : List ValidationError)
  | car (car : dto.CarResponse)
  | page (page : dto.PaginatedResponse)
deriving DecidableEq, Repr

/-- The members of the JSON object of an `ErrorResponse`; `marshal` is the JSON encoding
`c.JSON` applies, and a nil `Details` is left out (`omitempty`). -/
def ErrorResponse (marshal : Payload → String) (error message : String)
    (details : Option Payload) : List (String × String) :=
  [("error", error), ("message", message)] ++
    match details with
    | none => []
    | some value => [("details", marshal value)]

/-- The members of the JSON object of a `Response`; a nil `Data` is left out (`omitempty`). -/
def Response (marshal : Payload → String) (message : String)
    (data : Option Payload) : List (String × String) :=
  [("message", message)] ++
    match data with
    | none => []
    | some value => [("data", marshal value)]

def Success (marshal : Payload → String) (c : gin.Context) (message : String)
    (data : Option Payload) : gin.Context :=
  c.JSON http.StatusOK (Response marshal message data)

def BadRequest (marshal : Payload → String) (c : gin.Context) (message : String)
    (details : Option Payload) : gin.Context :=
  c.JSON http.StatusBadRequest (ErrorResponse marshal "Bad Request" message details)

def NotFound (marshal : Payload → String) (c : gin.Context) (message : String) : gin.Context :=
  c.JSON http.StatusNotFound (ErrorResponse marshal "Not Found" message none)

def InternalServerError (marshal : Payload → String) (c : gin.Context)
    (message : String) : gin.Context :=
  c.JSON http.StatusInternalServerError
    (ErrorResponse marshal "Internal Server Error" message none)

def UnprocessableEntity (marshal : Payload → String) (c : gin.Context) (message : String)
    (details : Option Payload) : gin.Context :=
  c.JSON http.StatusUnprocessableEntity
    (ErrorResponse marshal "Unprocessable Entity" message details)

def NoContent (c : gin.Context) : gin.Context :=
  c.SetStatus http.StatusNoContent

end response

/-! ## `internal/handler/car_handler.go` -/

namespace validator

/-- The part of a `validator.FieldError` the handler reads: `Field()`, `Tag()`, `Param()`. -/
structure FieldError where
  Field : String
  Tag : String
  Param : String
deriving DecidableEq, Repr

end validator

namespace gin

/-- The error returned by `ShouldBindJSON`: a `validator.ValidationErrors`, or any other
error with its `Error()` text. -/
inductive BindingError where
  | validation (errs : List validator.FieldError)
  | other (message : String)
deriving DecidableEq, Repr

end gin

namespace handler

/-- The library functions the handlers call: `uuid.Parse`, `ShouldBindJSON` into a
`dto.UpdateCarRequest`, and the JSON encoding applied by `c.JSON`. -/
structure Libraries where
  uuidParse : String → Except GoError UUID
  ShouldBindJSON : gin.Context → Except gin.BindingError dto.UpdateCarRequest
  marshal : response.Payload → String

/-- The Go struct `CarHandler`. -/
structure CarHandler (σ : Type) where
  carService : service.CarService σ

/-- The constructor `NewCarHandler`. -/
def NewCarHandler {σ : Type} (carService : service.CarService σ) : CarHandler σ :=
  { carService := carService }

/-- The Go method `CarHandler.getErrorMessage`. -/
def getErrorMessage (err : validator.FieldError) : String :=
  if err.Tag = "required" then "This field is required"
  else if err.Tag = "min" then "Value is too short or small"
  else if err.Tag = "max" then "Value is too long or large"
  else if err.Tag = "oneof" then "Invalid value. Allowed values: " ++ err.Param
  else "Invalid value"

/-- The Go method `CarHandler.formatValidationErrors`; the nil slice is the empty list. -/
def formatValidationErrors (err : gin.BindingError) : List response.ValidationError :=
  match err with
  | .validation validatorErrs =>
      validatorErrs.map (fun e => { Field := e.Field, Message := getErrorMessage e })
  | .other _ => []

/-- The text of `err.Error()` for an error that is not a `validator.ValidationErrors`; for
one that is, the handlers reach it only when the list is empty, and the text is empty. -/
def errorText : gin.BindingError → String
  | .validation _ => ""
  | .other message => message

variable {σ : Type}

/-- The Go method `CarHandler.GetCarByID`. -/
def CarHandler.GetCarByID (lib : Libraries) (h : CarHandler σ) (c : gin.Context) (s : σ) :
    gin.Context × σ :=
  let idParam := c.Param "id"
  match lib.uuidParse idParam with
  | .error _ => (response.BadRequest lib.marshal c "Invalid car ID format" none, s)
  | .ok id =>
      match h.carService.GetCarByID id s with
      | (.error err, s) =>
          if errors.Is err service.ErrCarNotFound then
            (response.NotFound lib.marshal c "Car not found", s)
          else (response.InternalServerError lib.marshal c "Failed to retrieve car", s)
      | (.ok car, s) =>
          (response.Success lib.marshal c "Car retrieved successfully" (some (.car car)), s)

/-- The Go method `CarHandler.UpdateCar`. -/
def CarHandler.UpdateCar (lib : Libraries) (h : CarHandler σ) (c : gin.Context) (s : σ) :
    gin.Context × σ :=
  let idParam := c.Param "id"
  match lib.uuidParse idParam with
  | .error _ => (response.BadRequest lib.marshal c "Invalid car ID format" none, s)
  | .ok id =>
      match lib.ShouldBindJSON c with
      | .error err =>
          let validationErrors := formatValidationErrors err
          if validationErrors ≠ [] then
            (response.UnprocessableEntity lib.marshal c "Validation failed"
              (some (.validationErrors validationErrors)), s)
          else
            (response.BadRequest lib.marshal c "Invalid request body"
              (some (.text (errorText err))), s)
      | .ok req =>
          match h.carService.UpdateCar id req s with
          | (.error err, s) =>
              if errors.Is err service.ErrCarNotFound then
                (response.NotFound lib.marshal c "Car not found", s)
              else (response.InternalServerError lib.marshal c "Failed to update car", s)
          | (.ok car, s) =>
              (response.Success lib.marshal c "Car updated successfully" (some (.car car)), s)

/-- The Go method `CarHandler.DeleteCar`. -/
def CarHandler.DeleteCar (lib : Libraries) (h : CarHandler σ) (c : gin.Context) (s : σ) :
    gin.Context × σ :=
  let idParam := c.Param "id"
  match lib.uuidParse idParam with
  | .error _ => (response.BadRequest lib.marshal c "Invalid car ID format" none, s)
  | .ok id =>
      match h.carService.DeleteCar id s with
      | (some err, s) =>
          if errors.Is err service.ErrCarNotFound then
            (response.NotFound lib.marshal c "Car not found", s)
          else (response.InternalServerError lib.marshal c "Failed to delete car", s)
      | (none, s) => (response.NoContent c, s)

end handler

/-! ## Fixtures -/

/-- A request from client address `ip` on which no middleware has acted yet. -/
def requestFrom (ip : String) : gin.Context :=
  { Request := { Method := "GET", Header := [] }, ClientIP := ip, Writer := [],
    Status := none, Body := [], Aborted := false }

/-- A request with the given method and `Origin` header, as the CORS tests build it. -/
def requestWithOrigin (method origin : String) : gin.Context :=
  { Request := { Method := method, Header := [("Origin", origin)] }, ClientIP := "10.0.0.1",
    Writer := [], Status := none, Body := [], Aborted := false }

/-- A request with the given method and no `Origin` header. -/
def requestWithoutOrigin (method : String) : gin.Context :=
  { Request := { Method := method, Header := [] }, ClientIP := "10.0.0.1",
    Writer := [], Status := none, Body := [], Aborted := false }

/-- Four requests, three of them from `10.0.0.1`, and a sweep, within one window of 60. -/
def burst : List middleware.Arrival :=
  [.request 0 (requestFrom "10.0.0.1"), .request 10 (requestFrom "10.0.0.2"),
   .request 20 (requestFrom "10.0.0.1"), .sweep 30, .request 60 (requestFrom "10.0.0.1")]

/-- A `time.Time.Format` stand-in for evaluations: the instant in nanoseconds. -/
def formatNanos (t : Time) (_layout : String) : String := toString t

/-- The record of the service tests. -/
def hondaCivic : entity.Car :=
  { ID := 7, Name := "Honda Civic", EngineVersion := "2.0",
    CreatedAt := 1000, UpdatedAt := 1000, DeletedAt := none }

/-- A mock whose `FindAll` reports `total` records and whose `FindByID` answers are `finds`. -/
def mockWith (total : Int) (finds : List (Except GoError entity.Car)) :
    mocks.MockCarRepository :=
  { onCreate := fun car => (car, none)
    onFindByID := finds
    onFindAll := .ok ([], total)
    onUpdate := none
    onDelete := none
    onExistsByID := (true, none) }

/-- The mock of the `CreateCar` success test: `Create` stamps id and timestamps on the record
and returns `nil`. -/
def stampingMock : mocks.MockCarRepository :=
  { mockWith 0 [] with
    onCreate := fun car => ({ car with ID := 42, CreatedAt := 1000, UpdatedAt := 1000 }, none) }

/-- A mock every call of which fails with `err`. -/
def failingMock (err : GoError) : mocks.MockCarRepository :=
  { onCreate := fun car => (car, some err)
    onFindByID := [.error err]
    onFindAll := .error err
    onUpdate := some err
    onDelete := some err
    onExistsByID := (false, some err) }

/-- The mock of the `UpdateCar` failure test: the record is found, `Update` fails with `err`. -/
def updateFailingMock (err : GoError) : mocks.MockCarRepository :=
  { mockWith 0 [.ok hondaCivic] with onUpdate := some err }


/-- A second record. -/
def toyotaCorolla : entity.Car :=
  { ID := 8, Name := "Toyota Corolla", EngineVersion := "1.8",
    CreatedAt := 2000, UpdatedAt := 2000, DeletedAt := none }

/-- A mock whose `FindAll` returns two records, as in the `GetAllCars` success test. -/
def listingMock : mocks.MockCarRepository :=
  { mockWith 2 [] with onFindAll := .ok ([hondaCivic, toyotaCorolla], 2) }

/-- A store whose `Updates` and `Delete` chains report `result`, and which holds no rows. -/
def storeReporting (result : gorm.Result) : gorm.DB Unit where
  Create := fun car s => ((car, none), s)
  First := fun _ s => (.error gorm.ErrRecordNotFound, s)
  Count := fun s => ((0, none), s)
  Find := fun _ _ _ s => (([], none), s)
  Updates := fun _ _ _ s => (result, s)
  Delete := fun _ s => (result, s)
  CountByID := fun _ s => ((0, none), s)

/-- A store without rows whose state is the journal of the `Order`, `Limit` and `Offset`
values its `Find` chain was given. -/
def journalingStore : gorm.DB (List (String × Int × Int)) where
  Create := fun car s => ((car, none), s)
  First := fun _ s => (.error gorm.ErrRecordNotFound, s)
  Count := fun s => ((0, none), s)
  Find := fun order limit offset s => (([], none), s ++ [(order, limit, offset)])
  Updates := fun _ _ _ s => ({ Error := none, RowsAffected := 0 }, s)
  Delete := fun _ s => ({ Error := none, RowsAffected := 0 }, s)
  CountByID := fun _ s => ((0, none), s)

/-- The last page a client can name: the largest Go `int`, with ten records per page. -/
def lastPage : dto.PaginationRequest :=
  { Page := 9223372036854775807, PageSize := 10, SortBy := "", SortDir := "" }

/-- A configuration with one allowed origin. -/
def sampleConfig : config.Config :=
  { Server := { Port := "8080", Env := "development",
                AllowedOrigins := ["https://app.example.com"] } }

/-- A request that carries the header `X-Request-ID: trace-1`. -/
def requestWithID : gin.Context :=
  { Request := { Method := "GET", Header := [("X-Request-ID", "trace-1")] },
    ClientIP := "10.0.0.1", Writer := [], Status := none, Body := [], Aborted := false }

/-- A request for the car with path id `id`. -/
def requestForCar (id : String) : gin.Context :=
  { requestFrom "10.0.0.1" with Params := [("id", id)] }

/-- Library stand-ins for evaluations: only the path id `7` parses, and binding the body
gives `bound`. -/
def librariesBinding (bound : Except gin.BindingError dto.UpdateCarRequest) :
    handler.Libraries :=
  { uuidParse := fun text =>
      if text = "7" then .ok 7 else .error (.other "invalid UUID length")
    ShouldBindJSON := fun _ => bound
    marshal := fun _ => "" }

/-- The binding error for a `name` of one character: the `min=2` rule fails. -/
def nameTooShort : gin.BindingError :=
  .validation [{ Field := "Name", Tag := "min", Param := "2" }]

/-- A handler over the service over a mock that holds `hondaCivic` and accepts every call. -/
def civicHandler : handler.CarHandler Nat :=
  handler.NewCarHandler (service.NewCarService formatNanos (mockWith 1 [.ok hondaCivic]).repo)

/-- Three requests from one address with a sweep between the second and the third, at a
moment when the entry of the address is older than a window of 60. -/
def sweptRun : List middleware.Event :=
  [.request 0 "10.0.0.1", .request 10 "10.0.0.1", .sweep 100, .request 130 "10.0.0.1",
   .request 135 "10.0.0.2", .request 140 "10.0.0.1"]

/-- Five requests from one address and one from another, with a sweep, within 70 time
units. -/
def busyRun : List middleware.Event :=
  [.request 0 "10.0.0.1", .request 10 "10.0.0.1", .request 15 "10.0.0.2",
   .request 20 "10.0.0.1", .sweep 30, .request 61 "10.0.0.1", .request 70 "10.0.0.1"]

/-! # Properties -/

/-! ## Machine integers -/

theorem wrapInt64_of_isInt64 {x : Int} (h : isInt64 x) : wrapInt64 x = x := by
  unfold isInt64 at h
  unfold wrapInt64
  have h1 : (x + 2 ^ 63) % 2 ^ 64 = x + 2 ^ 63 :=
    Int.emod_eq_of_lt (by omega) (by omega)
  omega

theorem wrapInt64_mul_left (a b : Int) : wrapInt64 (wrapInt64 a * b) = wrapInt64 (a * b) := by
  unfold wrapInt64
  have h : ((a + 2 ^ 63) % 2 ^ 64 - 2 ^ 63) * b + 2 ^ 63
      = (a * b + 2 ^ 63) + (-((a + 2 ^ 63) / 2 ^ 64) * b) * 2 ^ 64 := by
    have := Int.emod_add_ediv (a + 2 ^ 63) (2 ^ 64)
    linear_combination b * this
  rw [h, Int.add_mul_emod_self]

/-! ## Pagination contract -/

section pagination

open dto

theorem SetDefaults_Page (p : PaginationRequest) :
    p.SetDefaults.Page = (if p.Page < 1 then 1 else p.Page) := by
  unfold PaginationRequest.SetDefaults
  simp only [DefaultPage, DefaultPageSize, MaxPageSize]
  split_ifs <;> simp_all

theorem SetDefaults_PageSize (p : PaginationRequest) :
    p.SetDefaults.PageSize =
      (if p.PageSize < 1 then 10 else if p.PageSize > 100 then 100 else p.PageSize) := by
  unfold PaginationRequest.SetDefaults
  simp only [DefaultPage, DefaultPageSize, MaxPageSize]
  split_ifs <;> simp_all

theorem SetDefaults_SortBy (p : PaginationRequest) :
    p.SetDefaults.SortBy = (if p.SortBy = "" then "created_at" else p.SortBy) := by
  unfold PaginationRequest.SetDefaults
  dsimp only
  split_ifs <;> simp_all

theorem SetDefaults_SortDir (p : PaginationRequest) :
    p.SetDefaults.SortDir = (if p.SortDir = "" then "desc" else p.SortDir) := by
  unfold PaginationRequest.SetDefaults
  dsimp only
  split_ifs <;> simp_all

/-- The bounds on `Page` and `PageSize` after `SetDefaults`. -/
theorem SetDefaults_bounds (p : PaginationRequest) :
    p.SetDefaults.Page ≥ 1 ∧ 1 ≤ p.SetDefaults.PageSize ∧ p.SetDefaults.PageSize ≤ 100 := by
  have hp := SetDefaults_Page p
  have hs := SetDefaults_PageSize p
  refine ⟨?_, ?_, ?_⟩
  · rw [hp]; split_ifs <;> omega
  · rw [hs]; split_ifs <;> omega
  · rw [hs]; split_ifs <;> omega

theorem allowedColumns_lookup (s : String) :
    (match allowedColumns.lookup s with
      | some column => column
      | none => "created_at") = if s ∈ sortFields then s else "created_at" := by
  by_cases h1 : s = "name"
  · subst h1; rfl
  · by_cases h2 : s = "engine_version"
    · subst h2; rfl
    · by_cases h3 : s = "created_at"
      · subst h3; rfl
      · have e1 : (s == "name") = false := by simpa using h1
        have e2 : (s == "engine_version") = false := by simpa using h2
        have e3 : (s == "created_at") = false := by simpa using h3
        simp [allowedColumns, sortFields, List.lookup, e1, e2, e3, h1, h2, h3]

theorem GetOrderBy_eq (p : PaginationRequest) :
    p.GetOrderBy =
      (if p.SortBy ∈ sortFields then p.SortBy else "created_at") ++ " " ++
      (if p.SortDir = "asc" then "ASC" else "DESC") := by
  simp only [PaginationRequest.GetOrderBy, allowedColumns_lookup]

theorem GetOrderBy_mem (p : PaginationRequest) : p.GetOrderBy ∈ orderByClauses := by
  rw [GetOrderBy_eq p]
  by_cases hd : p.SortDir = "asc" <;> by_cases hs : p.SortBy ∈ sortFields
  · simp only [hd, hs, if_true]
    simp only [sortFields, List.mem_cons, List.mem_singleton, List.not_mem_nil, or_false] at hs
    rcases hs with h | h | h <;> rw [h] <;> decide
  · simp only [hd, hs, if_true, if_false]; decide
  · simp only [hd, hs, if_true, if_false]
    simp only [sortFields, List.mem_cons, List.mem_singleton, List.not_mem_nil, or_false] at hs
    rcases hs with h | h | h <;> rw [h] <;> decide
  · simp only [hd, hs, if_false]; decide

/-- C3. `SetDefaults` sets `Page` to 1 when it is below 1 and keeps it otherwise; it sets
`PageSize` to 10 when it is below 1, to 100 when it is above 100, and keeps it otherwise. -/
theorem SetDefaults_page_and_pageSize (p : PaginationRequest) :
    p.SetDefaults.Page = (if p.Page < 1 then 1 else p.Page) ∧
    p.SetDefaults.PageSize =
      (if p.PageSize < 1 then 10 else if p.PageSize > 100 then 100 else p.PageSize) := by
  constructor
  · unfold PaginationRequest.SetDefaults
    simp only [DefaultPage, DefaultPageSize, MaxPageSize]
    split_ifs <;> simp_all
  · unfold PaginationRequest.SetDefaults
    simp only [DefaultPage, DefaultPageSize, MaxPageSize]
    split_ifs <;> simp_all

/-- C2. `GetOrderBy` returns the column, one space and the direction, where the column is
`SortBy` when that is one of `name`, `engine_version`, `created_at` and `created_at` otherwise,
and the direction is `ASC` when `SortDir` is exactly `asc` and `DESC` otherwise; the result is
one of six fixed strings, and the injection attempt of the tests gives `created_at DESC`. -/
theorem GetOrderBy_whitelisted (p : PaginationRequest) :
    p.GetOrderBy =
        (if p.SortBy ∈ sortFields then p.SortBy else "created_at") ++ " " ++
        (if p.SortDir = "asc" then "ASC" else "DESC") ∧
    p.GetOrderBy ∈ orderByClauses ∧
    ({ p with SortBy := "name; DROP TABLE cars;", SortDir := "desc" } :
        PaginationRequest).GetOrderBy = "created_at DESC" := by
  refine ⟨GetOrderBy_eq p, GetOrderBy_mem p, ?_⟩
  rw [GetOrderBy_eq]; dsimp only; decide

/-- C1, as stated, fails: `SetDefaults` leaves a non-empty `SortBy` or `SortDir` as it is, inside
the whitelist or not.  The request with `SortBy = "invalid_field"` and `SortDir = "invalid"`
(the out-of-domain values of the `GetOrderBy` tests) is not domain-valid after `SetDefaults`. -/
theorem SetDefaults_keeps_invalid_sort :
    ¬ ((PaginationRequest.mk 1 10 "invalid_field" "invalid").SetDefaults.Page ≥ 1 ∧
       1 ≤ (PaginationRequest.mk 1 10 "invalid_field" "invalid").SetDefaults.PageSize ∧
       (PaginationRequest.mk 1 10 "invalid_field" "invalid").SetDefaults.PageSize ≤ 100 ∧
       (PaginationRequest.mk 1 10 "invalid_field" "invalid").SetDefaults.SortBy ∈ sortFields ∧
       (PaginationRequest.mk 1 10 "invalid_field" "invalid").SetDefaults.SortDir
          ∈ sortDirections) := by
  decide

/-- C1, amended. After `SetDefaults`, `Page ≥ 1` and `1 ≤ PageSize ≤ 100`; `SortBy` and `SortDir`
are non-empty: an empty `SortBy` has become `created_at`, an empty `SortDir` has become `desc`,
and a non-empty value is kept as supplied.  The whitelist is applied by `GetOrderBy`, whose
result on the normalised request is one of the six fixed clauses. -/
theorem SetDefaults_normalises (p : PaginationRequest) :
    p.SetDefaults.Page ≥ 1 ∧
    1 ≤ p.SetDefaults.PageSize ∧ p.SetDefaults.PageSize ≤ 100 ∧
    p.SetDefaults.SortBy = (if p.SortBy = "" then "created_at" else p.SortBy) ∧
    p.SetDefaults.SortDir = (if p.SortDir = "" then "desc" else p.SortDir) ∧
    p.SetDefaults.SortBy ≠ "" ∧ p.SetDefaults.SortDir ≠ "" ∧
    p.SetDefaults.GetOrderBy ∈ orderByClauses := by
  have hb := SetDefaults_SortBy p
  have hd := SetDefaults_SortDir p
  obtain ⟨h1, h2, h3⟩ := SetDefaults_bounds p
  refine ⟨h1, h2, h3, hb, hd, ?_, ?_, GetOrderBy_mem _⟩
  · rw [hb]; split_ifs with h
    · decide
    · exact h
  · rw [hd]; split_ifs with h
    · decide
    · exact h

/-- C5, as stated, fails: for `page = 9223372036854775807` and `page_size = 100`, both accepted by
the query binding, the product `(Page - 1) * PageSize` does not fit a Go `int` and `GetOffset`
returns `-200`. -/
theorem GetOffset_overflows :
    (PaginationRequest.mk 9223372036854775807 100 "" "").GetOffset = -200 ∧
    (PaginationRequest.mk 9223372036854775807 100 "" "").GetOffset
      ≠ (9223372036854775807 - 1) * 100 ∧
    isInt64 9223372036854775807 ∧ isInt64 100 := by
  decide

/-- C5, amended. `GetOffset` returns `(Page - 1) * PageSize` reduced to a 64-bit two's-complement
integer: it is that product whenever the product fits a Go `int`, as for page 3 with page size 25
(offset 50), and page 1 gives offset 0 for every page size. -/
theorem GetOffset_eq_of_fits (p : PaginationRequest) :
    p.GetOffset = wrapInt64 ((p.Page - 1) * p.PageSize) ∧
    (isInt64 ((p.Page - 1) * p.PageSize) → p.GetOffset = (p.Page - 1) * p.PageSize) ∧
    (p.Page = 1 → p.GetOffset = 0) ∧
    (p.Page = 3 → p.PageSize = 25 → p.GetOffset = 50) := by
  have h : p.GetOffset = wrapInt64 ((p.Page - 1) * p.PageSize) := by
    unfold PaginationRequest.GetOffset
    exact wrapInt64_mul_left _ _
  refine ⟨h, fun hfit => ?_, fun h1 => ?_, fun h3 h25 => ?_⟩
  · rw [h, wrapInt64_of_isInt64 hfit]
  · rw [h, h1]; simp [wrapInt64]
  · rw [h, h3, h25]; decide

/-- The amended C5 at page 3 with page size 25. -/
theorem GetOffset_eq_of_fits_witness :
    isInt64 ((3 - 1) * 25) ∧ (PaginationRequest.mk 3 25 "name" "asc").GetOffset = (3 - 1) * 25 :=
  ⟨by decide, (GetOffset_eq_of_fits (PaginationRequest.mk 3 25 "name" "asc")).2.1 (by decide)⟩

end pagination

/-! ## Binary64 arithmetic -/

section binary64

open float64

theorem log2Fuel_spec : ∀ (fuel n : Nat), 0 < n → n ≤ fuel →
    2 ^ log2Fuel fuel n ≤ n ∧ n < 2 ^ (log2Fuel fuel n + 1) := by
  intro fuel
  induction fuel with
  | zero => intro n h0 h1; omega
  | succ fuel ih =>
    intro n h0 h1
    unfold log2Fuel
    by_cases h2 : n < 2
    · simp only [h2, if_true]
      omega
    · simp only [h2, if_false]
      obtain ⟨ha, hb⟩ := ih (n / 2) (by omega) (by omega)
      rw [pow_succ] at hb ⊢
      constructor
      · omega
      · rw [pow_succ]; omega

theorem log2_spec (n : Nat) (h : 0 < n) : 2 ^ log2 n ≤ n ∧ n < 2 ^ (log2 n + 1) :=
  log2Fuel_spec n n h (le_refl n)

theorem exponent_spec (q : ℚ) (hq : 0 < q) :
    (2 : ℚ) ^ exponent q ≤ q ∧ q < (2 : ℚ) ^ (exponent q + 1) := by
  have hnum : 0 < q.num := Rat.num_pos.mpr hq
  have hden : 0 < q.den := q.den_pos
  obtain ⟨a1, a2⟩ := log2_spec q.num.natAbs (by omega)
  obtain ⟨b1, b2⟩ := log2_spec q.den hden
  have hqa : q = (q.num.natAbs : ℚ) / (q.den : ℚ) := by
    have h1 : ((q.num.natAbs : ℤ) : ℚ) = (q.num : ℚ) := by
      rw [Int.natAbs_of_nonneg hnum.le]
    rw [← Int.cast_natCast q.num.natAbs, h1]
    exact (Rat.num_div_den q).symm
  have hdq : (0 : ℚ) < (q.den : ℚ) := by exact_mod_cast hden
  have A1 : (2 : ℚ) ^ log2 q.num.natAbs ≤ (q.num.natAbs : ℚ) := by exact_mod_cast a1
  have A2 : (q.num.natAbs : ℚ) < (2 : ℚ) ^ (log2 q.num.natAbs + 1) := by exact_mod_cast a2
  have B1 : (2 : ℚ) ^ log2 q.den ≤ (q.den : ℚ) := by exact_mod_cast b1
  have B2 : (q.den : ℚ) < (2 : ℚ) ^ (log2 q.den + 1) := by exact_mod_cast b2
  have two_ne : (2 : ℚ) ≠ 0 := by norm_num
  have hpb : (0 : ℚ) < (2 : ℚ) ^ log2 q.den := by positivity
  have he0 : (2 : ℚ) ^ ((log2 q.num.natAbs : ℤ) - (log2 q.den : ℤ))
      = (2 : ℚ) ^ log2 q.num.natAbs / (2 : ℚ) ^ log2 q.den := by
    rw [zpow_sub₀ two_ne, zpow_natCast, zpow_natCast]
  unfold exponent
  dsimp only
  split_ifs with hlt
  · refine ⟨?_, by simpa using hlt⟩
    rw [zpow_sub_one₀ two_ne, he0]
    have : (2 : ℚ) ^ log2 q.num.natAbs / (2 : ℚ) ^ log2 q.den * 2⁻¹
        = (2 : ℚ) ^ log2 q.num.natAbs / (2 : ℚ) ^ (log2 q.den + 1) := by
      rw [pow_succ]; field_simp
    rw [this]
    conv_rhs => rw [hqa]
    rw [div_le_div_iff₀ (by positivity) hdq]
    calc (2 : ℚ) ^ log2 q.num.natAbs * (q.den : ℚ)
        ≤ (q.num.natAbs : ℚ) * (q.den : ℚ) := by
          apply mul_le_mul_of_nonneg_right A1 hdq.le
      _ ≤ (q.num.natAbs : ℚ) * (2 : ℚ) ^ (log2 q.den + 1) := by
          apply mul_le_mul_of_nonneg_left B2.le (by positivity)
  · refine ⟨le_of_not_lt hlt, ?_⟩
    rw [zpow_add_one₀ two_ne, he0]
    have : (2 : ℚ) ^ log2 q.num.natAbs / (2 : ℚ) ^ log2 q.den * 2
        = (2 : ℚ) ^ (log2 q.num.natAbs + 1) / (2 : ℚ) ^ log2 q.den := by
      rw [pow_succ]; field_simp
    rw [this]
    conv_lhs => rw [hqa]
    rw [div_lt_div_iff₀ hdq hpb]
    calc (q.num.natAbs : ℚ) * (2 : ℚ) ^ log2 q.den
        ≤ (q.num.natAbs : ℚ) * (q.den : ℚ) := by
          apply mul_le_mul_of_nonneg_left B1 (by positivity)
      _ < (2 : ℚ) ^ (log2 q.num.natAbs + 1) * (q.den : ℚ) := by
          apply mul_lt_mul_of_pos_right A2 hdq

theorem roundHalfEven_intCast (m : Int) : roundHalfEven (m : ℚ) = m := by
  unfold roundHalfEven
  simp

theorem roundHalfEven_le (x : ℚ) (K : Int) (h : x ≤ K) : roundHalfEven x ≤ K := by
  rcases h.lt_or_eq with h | h
  · have hf : ⌊x⌋ < K := Int.floor_lt.mpr h
    unfold roundHalfEven
    dsimp only
    split_ifs <;> omega
  · rw [h, roundHalfEven_intCast]

theorem lt_roundHalfEven (x : ℚ) (K : Int) (h : (K : ℚ) + 1 / 2 < x) :
    K + 1 ≤ roundHalfEven x := by
  have hK : K ≤ ⌊x⌋ := Int.le_floor.mpr (by linarith)
  unfold roundHalfEven
  dsimp only
  by_cases hf : K + 1 ≤ ⌊x⌋
  · split_ifs <;> omega
  · have hfl : ⌊x⌋ = K := by omega
    have h1 : ¬ x - (⌊x⌋ : ℚ) < 1 / 2 := by rw [hfl]; linarith
    have h2 : 1 / 2 < x - (⌊x⌋ : ℚ) := by rw [hfl]; linarith
    simp only [h1, h2, if_true, if_false]
    omega

/-- In the range met here, `round` scales by a power of two that brings the value into
`[2 ^ 52, 2 ^ 53)`, rounds to an integer and scales back. -/
theorem round_scaled (q : ℚ) (hlo : (2 : ℚ) ^ (-1022 : ℤ) ≤ q) (hhi : q < (2 : ℚ) ^ (53 : ℤ)) :
    ∃ d : ℕ, float64.round q = (roundHalfEven (q * (2 : ℚ) ^ d) : ℚ) / (2 : ℚ) ^ d ∧
      (2 : ℚ) ^ 52 ≤ q * (2 : ℚ) ^ d := by
  have hq : 0 < q := lt_of_lt_of_le (by positivity) hlo
  obtain ⟨e1, e2⟩ := exponent_spec q hq
  have one_lt : (1 : ℚ) < 2 := by norm_num
  have two_ne : (2 : ℚ) ≠ 0 := by norm_num
  have he_hi : exponent q < 53 :=
    (zpow_lt_zpow_iff_right₀ one_lt).mp (lt_of_le_of_lt e1 hhi)
  have he_lo : -1022 < exponent q + 1 :=
    (zpow_lt_zpow_iff_right₀ one_lt).mp (lt_of_le_of_lt hlo e2)
  have hmax : max (exponent q) (-1022) = exponent q := max_eq_left (by omega)
  refine ⟨(52 - exponent q).toNat, ?_, ?_⟩
  · have hulp : (2 : ℚ) ^ (exponent q - 52) = ((2 : ℚ) ^ (52 - exponent q).toNat)⁻¹ := by
      rw [← zpow_natCast, ← zpow_neg]
      congr 1
      omega
    unfold float64.round
    simp only [hq.ne', if_false, abs_of_pos hq, not_lt.mpr hq.le, hmax, hulp]
    rw [div_inv_eq_mul, div_eq_mul_inv]
  · have : (2 : ℚ) ^ (52 : ℕ) = (2 : ℚ) ^ exponent q * (2 : ℚ) ^ (52 - exponent q).toNat := by
      rw [← zpow_natCast, ← zpow_natCast, ← zpow_add₀ two_ne]
      congr 1
      omega
    rw [this]
    exact mul_le_mul_of_nonneg_right e1 (by positivity)

theorem zpow_neg_1022_le_one : (2 : ℚ) ^ (-1022 : ℤ) ≤ 1 := by
  have := zpow_le_zpow_right₀ (show (1 : ℚ) ≤ 2 by norm_num) (show (-1022 : ℤ) ≤ 0 by norm_num)
  simpa using this

/-- An integer below `2 ^ 53` is a binary64 value: the conversion keeps it. -/
theorem ofInt_exact (t : Int) (h0 : 0 ≤ t) (h1 : t < 2 ^ 53) : ofInt t = t := by
  unfold ofInt
  rcases h0.lt_or_eq with h0 | h0
  · have ht1 : (1 : ℚ) ≤ (t : ℚ) := by exact_mod_cast h0
    have hlo : (2 : ℚ) ^ (-1022 : ℤ) ≤ (t : ℚ) := le_trans zpow_neg_1022_le_one ht1
    have hhi : (t : ℚ) < (2 : ℚ) ^ (53 : ℤ) := by
      have : (t : ℚ) < (2 : ℚ) ^ (53 : ℕ) := by exact_mod_cast h1
      rw [show (53 : ℤ) = ((53 : ℕ) : ℤ) by norm_num, zpow_natCast]
      exact this
    obtain ⟨d, hd, -⟩ := round_scaled (t : ℚ) hlo hhi
    have hcast : (t : ℚ) * (2 : ℚ) ^ d = ((t * 2 ^ d : ℤ) : ℚ) := by push_cast; ring
    rw [hd, hcast, roundHalfEven_intCast]
    push_cast
    field_simp
  · rw [← h0]; simp [float64.round]

/-- Below `2 ^ 53` the rounded quotient of two integers has the ceiling of the exact one. -/
theorem ceil_round_div (t p : Int) (h0 : 0 < t) (h1 : t < 2 ^ 53) (hp1 : 1 ≤ p)
    (hp2 : p ≤ 100) : ⌈float64.round ((t : ℚ) / (p : ℚ))⌉ = ⌈(t : ℚ) / (p : ℚ)⌉ := by
  have hpq : (0 : ℚ) < (p : ℚ) := by exact_mod_cast (show (0 : ℤ) < p by omega)
  have htq : (1 : ℚ) ≤ (t : ℚ) := by exact_mod_cast h0
  have hp100 : (p : ℚ) ≤ 100 := by exact_mod_cast hp2
  have hp1q : (1 : ℚ) ≤ (p : ℚ) := by exact_mod_cast hp1
  have ht53 : (t : ℚ) < (2 : ℚ) ^ (53 : ℕ) := by exact_mod_cast h1
  set q : ℚ := (t : ℚ) / (p : ℚ) with hq
  have hqt : q * (p : ℚ) = (t : ℚ) := by rw [hq]; field_simp
  have hq_le : q ≤ (t : ℚ) := by
    rw [hq, div_le_iff₀ hpq]
    nlinarith
  have hlo : (2 : ℚ) ^ (-1022 : ℤ) ≤ q := by
    have h7 : (2 : ℚ) ^ (-1022 : ℤ) ≤ (2 : ℚ) ^ (-7 : ℤ) :=
      zpow_le_zpow_right₀ (by norm_num) (by norm_num)
    have h8 : (2 : ℚ) ^ (-7 : ℤ) ≤ q := by
      rw [hq, le_div_iff₀ hpq]
      have : (2 : ℚ) ^ (-7 : ℤ) = 1 / 128 := by norm_num [zpow_neg]
      rw [this]
      linarith
    exact le_trans h7 h8
  have hhi : q < (2 : ℚ) ^ (53 : ℤ) := by
    have : q < (2 : ℚ) ^ (53 : ℕ) := lt_of_le_of_lt hq_le ht53
    rw [show (53 : ℤ) = ((53 : ℕ) : ℤ) by norm_num, zpow_natCast]
    exact this
  obtain ⟨d, hd, hd52⟩ := round_scaled q hlo hhi
  set S : ℚ := (2 : ℚ) ^ d with hS
  have hSpos : 0 < S := by positivity
  -- the divisor is below twice the scale
  have hp2S : (p : ℚ) < 2 * S := by
    have h1 : (2 : ℚ) ^ 52 * (p : ℚ) ≤ (t : ℚ) * S := by
      calc (2 : ℚ) ^ 52 * (p : ℚ) ≤ q * S * (p : ℚ) :=
            mul_le_mul_of_nonneg_right hd52 hpq.le
        _ = (t : ℚ) * S := by rw [← hqt]; ring
    have h2 : (t : ℚ) * S < (2 : ℚ) ^ 53 * S := mul_lt_mul_of_pos_right ht53 hSpos
    have h3 : (2 : ℚ) ^ 52 * (p : ℚ) < (2 : ℚ) ^ 52 * (2 * S) := by
      calc (2 : ℚ) ^ 52 * (p : ℚ) ≤ (t : ℚ) * S := h1
        _ < (2 : ℚ) ^ 53 * S := h2
        _ = (2 : ℚ) ^ 52 * (2 * S) := by ring
    exact lt_of_mul_lt_mul_left h3 (by positivity)
  -- the exact quotient lies at least `1 / p` above the integer below its ceiling
  obtain ⟨hk1, hk2⟩ := (Int.ceil_eq_iff (a := q) (z := ⌈q⌉)).mp rfl
  have hgap : ((⌈q⌉ - 1 : ℤ) : ℚ) * (p : ℚ) + 1 ≤ (t : ℚ) := by
    have hlt : ((⌈q⌉ - 1 : ℤ) : ℚ) * (p : ℚ) < (t : ℚ) := by
      rw [← hqt]
      push_cast
      exact mul_lt_mul_of_pos_right hk1 hpq
    have hlt' : (⌈q⌉ - 1) * p < t := by exact_mod_cast hlt
    have : (⌈q⌉ - 1) * p + 1 ≤ t := by omega
    exact_mod_cast this
  have hScast : S = (((2 : ℤ) ^ d : ℤ) : ℚ) := by rw [hS]; push_cast; rfl
  rw [Int.ceil_eq_iff, hd]
  constructor
  · -- strictly above `⌈q⌉ - 1`
    have hlow : ((⌈q⌉ - 1) * 2 ^ d : ℤ) + 1 ≤ roundHalfEven (q * S) := by
      apply lt_roundHalfEven
      push_cast
      rw [← hS]
      have hq' : (((⌈q⌉ : ℤ) : ℚ) - 1) * (p : ℚ) + 1 ≤ q * (p : ℚ) := by
        rw [hqt]; push_cast at hgap; exact hgap
      have hq'' : ((⌈q⌉ : ℤ) : ℚ) - 1 + 1 / (p : ℚ) ≤ q := by
        have e : (((⌈q⌉ : ℤ) : ℚ) - 1 + 1 / (p : ℚ)) * (p : ℚ)
            = (((⌈q⌉ : ℤ) : ℚ) - 1) * (p : ℚ) + 1 := by
          field_simp
        exact le_of_mul_le_mul_right (e ▸ hq') hpq
      have hhalf : (1 : ℚ) / 2 < S / (p : ℚ) := by
        rw [div_lt_div_iff₀ (by norm_num) hpq]
        linarith
      calc (((⌈q⌉ : ℤ) : ℚ) - 1) * S + 1 / 2
          < (((⌈q⌉ : ℤ) : ℚ) - 1) * S + S / (p : ℚ) := by linarith
        _ = (((⌈q⌉ : ℤ) : ℚ) - 1 + 1 / (p : ℚ)) * S := by ring
        _ ≤ q * S := mul_le_mul_of_nonneg_right hq'' hSpos.le
    have hlow' : (((⌈q⌉ - 1) * 2 ^ d + 1 : ℤ) : ℚ) ≤ ((roundHalfEven (q * S) : ℤ) : ℚ) := by
      exact_mod_cast hlow
    rw [lt_div_iff₀ hSpos]
    push_cast at hlow'
    rw [← hS] at hlow'
    linarith
  · -- at most `⌈q⌉`
    have hup : roundHalfEven (q * S) ≤ ⌈q⌉ * 2 ^ d := by
      apply roundHalfEven_le
      push_cast
      rw [← hS]
      exact mul_le_mul_of_nonneg_right hk2 hSpos.le
    rw [div_le_iff₀ hSpos]
    have : ((roundHalfEven (q * S) : ℤ) : ℚ) ≤ ((⌈q⌉ * 2 ^ d : ℤ) : ℚ) := by exact_mod_cast hup
    rw [hS]
    push_cast at this
    exact this

/-- For totals below `2 ^ 53`, which binary64 holds exactly, the page count computed through
`float64` is the exact ceiling of `total / pageSize`. -/
theorem totalPages_exact (total pageSize : Int) (h0 : 0 ≤ total) (h1 : total < 2 ^ 53)
    (hp1 : 1 ≤ pageSize) (hp2 : pageSize ≤ 100) :
    service.totalPages total pageSize = ⌈(total : ℚ) / (pageSize : ℚ)⌉ := by
  unfold service.totalPages float64.div Ceil
  rw [ofInt_exact total h0 h1, ofInt_exact pageSize (by omega) (by omega)]
  rcases h0.lt_or_eq with h0 | h0
  · rw [ceil_round_div total pageSize h0 h1 hp1 hp2]
    have hpq : (0 : ℚ) < (pageSize : ℚ) := by exact_mod_cast (show (0 : ℤ) < pageSize by omega)
    have htq : (0 : ℚ) < (total : ℚ) := by exact_mod_cast h0
    have hk0 : 0 ≤ ⌈(total : ℚ) / (pageSize : ℚ)⌉ := Int.ceil_nonneg (div_pos htq hpq).le
    have hk1 : ⌈(total : ℚ) / (pageSize : ℚ)⌉ ≤ total := by
      rw [Int.ceil_le, div_le_iff₀ hpq]
      have : (1 : ℚ) ≤ (pageSize : ℚ) := by exact_mod_cast hp1
      nlinarith
    have hfit : isInt64 ⌈(total : ℚ) / (pageSize : ℚ)⌉ := by
      unfold isInt64; omega
    have hnn : (0 : ℚ) ≤ ((⌈(total : ℚ) / (pageSize : ℚ)⌉ : ℤ) : ℚ) := by exact_mod_cast hk0
    unfold toInt
    simp only [hnn, if_true, Int.floor_intCast, hfit]
  · rw [← h0]
    simp [float64.round, toInt, isInt64]

end binary64

/-! ## Car service -/

section carService

open service repository mocks

/-- C4. With 9007199254740993 records (`2 ^ 53 + 1`) and page size 1, `GetAllCars` reports
9007199254740992 pages, one less than the exact ceiling: `float64(total)` has already lost the
last bit.  The two examples of the specification, 25 records by 10 and 0 records, give 3 and 0. -/
theorem GetAllCars_totalPages_inexact :
    ((GetAllCars formatNanos (mockWith 9007199254740993 []).repo ⟨1, 1, "", ""⟩ 0).1.toOption.map
        fun r => r.Pagination) =
      some { CurrentPage := 1, PageSize := 1, TotalPages := 9007199254740992,
             TotalRecords := 9007199254740993 } ∧
    ⌈(9007199254740993 : ℚ) / 1⌉ = 9007199254740993 ∧
    totalPages 25 10 = 3 ∧ totalPages 0 10 = 0 := by
  decide!

/-- C6. `GetAllCars` calls the gateway once, with the request as normalised by `SetDefaults`,
which satisfies `Page ≥ 1` and `1 ≤ PageSize ≤ 100`; it succeeds exactly when `FindAll` does, and
then `CurrentPage` and `PageSize` are the normalised values and `TotalRecords` is the total
returned by the gateway. -/
theorem GetAllCars_normalises_before_FindAll {σ : Type} (format : Time → String → String)
    (repo : CarRepository σ) (p : dto.PaginationRequest) (s : σ) :
    (GetAllCars format repo.recording p (s, [])).2.2 = [Call.FindAll p.SetDefaults] ∧
    p.SetDefaults.Page ≥ 1 ∧ 1 ≤ p.SetDefaults.PageSize ∧ p.SetDefaults.PageSize ≤ 100 ∧
    (∀ cars total, (repo.FindAll p.SetDefaults s).1 = .ok (cars, total) →
      ∃ resp, (GetAllCars format repo.recording p (s, [])).1 = .ok resp ∧
        resp.Pagination.CurrentPage = p.SetDefaults.Page ∧
        resp.Pagination.PageSize = p.SetDefaults.PageSize ∧
        resp.Pagination.TotalRecords = total) ∧
    (∀ resp, (GetAllCars format repo.recording p (s, [])).1 = .ok resp →
      ∃ cars, (repo.FindAll p.SetDefaults s).1 = .ok (cars, resp.Pagination.TotalRecords) ∧
        resp.Pagination.CurrentPage = p.SetDefaults.Page ∧
        resp.Pagination.PageSize = p.SetDefaults.PageSize) := by
  obtain ⟨h1, h2, h3⟩ := SetDefaults_bounds p
  refine ⟨?_, h1, h2, h3, ?_, ?_⟩
  · unfold GetAllCars
    simp only [CarRepository.recording]
    rcases repo.FindAll p.SetDefaults s with ⟨r | ⟨cars, total⟩, s1⟩ <;> simp
  · intro cars total h
    unfold GetAllCars
    simp only [CarRepository.recording]
    rcases hr : repo.FindAll p.SetDefaults s with ⟨r | ⟨cars1, total1⟩, s1⟩
    · rw [hr] at h; simp at h
    · rw [hr] at h
      simp only [Except.ok.injEq, Prod.mk.injEq] at h
      exact ⟨_, rfl, rfl, rfl, h.2⟩
  · intro resp
    unfold GetAllCars
    simp only [CarRepository.recording]
    rcases repo.FindAll p.SetDefaults s with ⟨r | ⟨cars1, total1⟩, s1⟩
    · simp
    · intro h
      simp only [Except.ok.injEq] at h
      subst h
      exact ⟨cars1, rfl, rfl, rfl⟩

/-- C7. When the initial fetch returns `existing`, the record `UpdateCar` hands to the gateway's
`Update` (its second gateway call, and the only `Update`) has the existing id, `Name` equal to
the request's when that is non-empty and to the existing one otherwise, and `EngineVersion`
likewise; so a request with only a name keeps the engine version, an empty request keeps both
and a full request replaces both. -/
theorem UpdateCar_merges_nonempty_fields {σ : Type} (format : Time → String → String)
    (repo : CarRepository σ) (id : UUID) (req : dto.UpdateCarRequest) (s s1 : σ)
    (existing : entity.Car) (hfind : repo.FindByID id s = (.ok existing, s1)) :
    ∃ merged : entity.Car,
      (UpdateCar format repo.recording id req (s, [])).2.2 =
        [Call.FindByID id, Call.Update merged] ++
          (if (repo.Update merged s1).1 = none then [Call.FindByID id] else []) ∧
      merged.ID = existing.ID ∧
      merged.Name = (if req.Name ≠ "" then req.Name else existing.Name) ∧
      merged.EngineVersion =
        (if req.EngineVersion ≠ "" then req.EngineVersion else existing.EngineVersion) ∧
      merged.CreatedAt = existing.CreatedAt ∧ merged.UpdatedAt = existing.UpdatedAt ∧
      merged.DeletedAt = existing.DeletedAt ∧
      (req.Name ≠ "" → req.EngineVersion = "" →
        merged.Name = req.Name ∧ merged.EngineVersion = existing.EngineVersion) ∧
      (req.Name = "" → req.EngineVersion = "" → merged = existing) ∧
      (req.Name ≠ "" → req.EngineVersion ≠ "" →
        merged.Name = req.Name ∧ merged.EngineVersion = req.EngineVersion) := by
  refine ⟨{ existing with
      Name := if req.Name ≠ "" then req.Name else existing.Name
      EngineVersion :=
        if req.EngineVersion ≠ "" then req.EngineVersion else existing.EngineVersion },
    ?_, rfl, rfl, rfl, rfl, rfl, rfl, ?_, ?_, ?_⟩
  · unfold UpdateCar
    simp only [CarRepository.recording, hfind]
    have hm : (if req.EngineVersion ≠ "" then
          { (if req.Name ≠ "" then { existing with Name := req.Name } else existing) with
            EngineVersion := req.EngineVersion }
        else (if req.Name ≠ "" then { existing with Name := req.Name } else existing)) =
        { existing with
          Name := if req.Name ≠ "" then req.Name else existing.Name
          EngineVersion :=
            if req.EngineVersion ≠ "" then req.EngineVersion else existing.EngineVersion } := by
      split_ifs <;> rfl
    rw [hm]
    rcases hu : repo.Update _ s1 with ⟨_ | err, s2⟩
    · simp only [List.nil_append, List.singleton_append, if_true]
      rcases repo.FindByID id s2 with ⟨e | c, s3⟩ <;> simp
    · simp only [List.nil_append]
      split_ifs <;> simp_all
  · intro h1 h2; simp [h1, h2]
  · intro h1 h2; simp [h1, h2]
  · intro h1 h2; simp [h1, h2]

/-- C7 at the partial update of the service tests: only a name is supplied. -/
theorem UpdateCar_merges_nonempty_fields_witness :
    ∃ merged : entity.Car,
      (UpdateCar formatNanos (mockWith 0 [.ok hondaCivic]).repo.recording 7
          ⟨"Honda Civic Sport", ""⟩ (0, [])).2.2 =
        [Call.FindByID 7, Call.Update merged] ++
          (if ((mockWith 0 [.ok hondaCivic]).repo.Update merged 1).1 = none
            then [Call.FindByID 7] else []) ∧
      merged.ID = hondaCivic.ID ∧
      merged.Name = "Honda Civic Sport" ∧ merged.EngineVersion = "2.0" := by
  obtain ⟨merged, h1, h2, h3, h4, -⟩ :=
    UpdateCar_merges_nonempty_fields formatNanos (mockWith 0 [.ok hondaCivic]).repo 7
      ⟨"Honda Civic Sport", ""⟩ 0 1 hondaCivic rfl
  exact ⟨merged, h1, h2, h3, h4⟩

/-- C8. The re-fetch after a successful update is not translated: when the record disappears
between `Update` and the second `FindByID`, `UpdateCar` returns `repository.ErrCarNotFound`
itself, which is not `service.ErrCarNotFound` for `errors.Is`; at the initial fetch the same
gateway answer is translated. -/
theorem UpdateCar_refetch_not_translated :
    (UpdateCar formatNanos
        (mockWith 0 [.ok hondaCivic, .error repository.ErrCarNotFound]).repo 7
        ⟨"Honda Civic Sport", ""⟩ 0).1 = .error repository.ErrCarNotFound ∧
    errors.Is repository.ErrCarNotFound service.ErrCarNotFound = false ∧
    (UpdateCar formatNanos (mockWith 0 [.error repository.ErrCarNotFound]).repo 7
        ⟨"Honda Civic Sport", ""⟩ 0).1 = .error service.ErrCarNotFound := by
  refine ⟨rfl, rfl, rfl⟩

end carService

/-! ## Rate limiter -/

section rateLimit

open middleware

theorem Sub_le_of_nonneg {t u w : Int} (h0 : u ≤ t) (hw : t - u ≤ w) : ¬ time.Sub t u > w := by
  simp only [time.Sub, time.maxDuration, time.minDuration]
  omega

theorem allow_other (rl : rateLimiter) (now : Int) {a ip : String} (h : a ≠ ip) :
    (rl.allow now a).2.visitors ip = rl.visitors ip ∧
    (rl.allow now a).2.rate = rl.rate ∧ (rl.allow now a).2.window = rl.window := by
  unfold rateLimiter.allow
  have h' : ¬ ip = a := fun e => h e.symm
  rcases rl.visitors a with _ | v
  · simp [h']
  · dsimp only
    split_ifs <;> simp [h']

theorem RateLimit_eq (l : rateLimiter) (now : Int) (next : gin.Context → gin.Context)
    (c : gin.Context) :
    RateLimit l now next c =
      (if (l.allow now c.ClientIP).1 then next c else tooManyRequests c,
       (l.allow now c.ClientIP).2) := by
  unfold RateLimit
  rcases h : l.allow now c.ClientIP with ⟨d, l'⟩
  cases d <;> simp [tooManyRequests, gin.Context.JSON, gin.Context.Abort,
    http.StatusTooManyRequests, h]

theorem cleanup_outcome (rl : rateLimiter) (now : Int) (ip : String) :
    (rl.cleanup now).rate = rl.rate ∧ (rl.cleanup now).window = rl.window ∧
    (rl.visitors ip = none → (rl.cleanup now).visitors ip = none) ∧
    (∀ v, rl.visitors ip = some v →
      (rl.cleanup now).visitors ip =
        if time.Sub now v.lastSeen > rl.window then none else some v) := by
  refine ⟨rfl, rfl, ?_, ?_⟩
  · intro h; simp [rateLimiter.cleanup, h]
  · intro v h; simp [rateLimiter.cleanup, h]

theorem requestsOf_mem (ip : String) :
    ∀ (arrivals : List Arrival) (r : Int × gin.Context), r ∈ requestsOf ip arrivals →
      Arrival.request r.1 r.2 ∈ arrivals ∧ r.2.ClientIP = ip := by
  intro arrivals
  induction arrivals with
  | nil => intro r h; simp [requestsOf] at h
  | cons a rest ih =>
    intro r h
    cases a with
    | request t c =>
      by_cases hc : c.ClientIP = ip
      · simp only [requestsOf, hc, if_true, List.mem_cons] at h
        rcases h with h | h
        · subst h; exact ⟨List.mem_cons_self _ _, hc⟩
        · exact ⟨List.mem_cons_of_mem _ (ih r h).1, (ih r h).2⟩
      · simp only [requestsOf, hc, if_false] at h
        exact ⟨List.mem_cons_of_mem _ (ih r h).1, (ih r h).2⟩
    | sweep t =>
      simp only [requestsOf] at h
      exact ⟨List.mem_cons_of_mem _ (ih r h).1, (ih r h).2⟩

theorem observe_no_requests (ip : String) (next : gin.Context → gin.Context) :
    ∀ (arrivals : List Arrival) (rl : rateLimiter),
      requestsOf ip arrivals = [] → observe ip next rl arrivals = [] := by
  intro arrivals
  induction arrivals with
  | nil => intros; rfl
  | cons a rest ih =>
    intro rl h
    cases a with
    | request t c =>
      by_cases hc : c.ClientIP = ip
      · simp [requestsOf, hc] at h
      · simp only [requestsOf, hc, if_false] at h
        simp only [observe, hc, if_false]
        exact ih _ h
    | sweep t =>
      simp only [requestsOf] at h
      simp only [observe]
      exact ih _ h

theorem observe_seen (ip : String) (next : gin.Context → gin.Context) :
    ∀ (arrivals : List Arrival) (rl : rateLimiter) (last k t0 : Int),
      rl.visitors ip = some ⟨last, k⟩ → 1 ≤ k → isInt64 rl.rate → t0 ≤ last →
      arrivals.Pairwise (fun a b => a.now ≤ b.now) →
      (∀ a ∈ arrivals, last ≤ a.now) →
      (∀ r ∈ requestsOf ip arrivals, r.1 ≤ t0 + rl.window) →
      observe ip next rl arrivals =
        ((requestsOf ip arrivals).take (rl.rate - k).toNat).map (fun r => (true, next r.2)) ++
        ((requestsOf ip arrivals).drop (rl.rate - k).toNat).map
            (fun r => (false, tooManyRequests r.2)) := by
  intro arrivals
  induction arrivals with
  | nil => intros; simp [observe, requestsOf]
  | cons a rest ih =>
    intro rl last k t0 hv hk hrate ht0 hsorted hlast hwin
    rw [List.pairwise_cons] at hsorted
    have hla : last ≤ a.now := hlast a (List.mem_cons_self _ _)
    have hlast' : ∀ b ∈ rest, last ≤ b.now := fun b hb => hlast b (List.mem_cons_of_mem _ hb)
    cases a with
    | request t c =>
      simp only [Arrival.now] at hla hsorted
      by_cases hc : c.ClientIP = ip
      · have hreq : requestsOf ip (Arrival.request t c :: rest) = (t, c) :: requestsOf ip rest := by
          simp [requestsOf, hc]
        rw [hreq] at hwin ⊢
        have hwt : t ≤ t0 + rl.window := hwin (t, c) (List.mem_cons_self _ _)
        have hsub : ¬ time.Sub t last > rl.window := Sub_le_of_nonneg hla (by omega)
        by_cases hfull : k ≥ rl.rate
        · have hallow : rl.allow t ip = (false, rl) := by
            unfold rateLimiter.allow
            rw [hv]
            simp [hsub, hfull]
          have h0 : (rl.rate - k).toNat = 0 := by omega
          have := ih rl last k t0 hv hk hrate ht0 hsorted.2 hlast'
            (fun r hr => hwin r (List.mem_cons_of_mem _ hr))
          rw [h0] at this ⊢
          simp only [observe, RateLimit_eq, hc, hallow, if_true]
          simp [this]
        · have hk1 : isInt64 (k + 1) := by
            unfold isInt64 at hrate ⊢; omega
          have hallow : rl.allow t ip =
              (true, { rl with visitors := fun a =>
                if a = ip then some { lastSeen := t, count := k + 1 } else rl.visitors a }) := by
            unfold rateLimiter.allow
            rw [hv]
            simp [hsub, hfull, wrapInt64_of_isInt64 hk1]
          have hs : (rl.rate - k).toNat = (rl.rate - (k + 1)).toNat + 1 := by omega
          have := ih { rl with visitors := fun a =>
                if a = ip then some { lastSeen := t, count := k + 1 } else rl.visitors a }
            t (k + 1) t0 (by simp) (by omega) hrate (by omega) hsorted.2
            (fun b hb => hsorted.1 b hb)
            (fun r hr => hwin r (List.mem_cons_of_mem _ hr))
          rw [hs]
          simp only [observe, RateLimit_eq, hc, hallow, if_true]
          simp [this]
      · have hreq : requestsOf ip (Arrival.request t c :: rest) = requestsOf ip rest := by
          simp [requestsOf, hc]
        obtain ⟨f1, f2, f3⟩ := allow_other rl t hc
        rw [hreq] at hwin ⊢
        have := ih (rl.allow t c.ClientIP).2 last k t0 (by rw [f1, hv]) hk
          (by rw [f2]; exact hrate) ht0 hsorted.2 hlast' (by rw [f3]; exact hwin)
        simp only [observe, RateLimit_eq, hc, if_false]
        rw [this, f2]
    | sweep s =>
      simp only [Arrival.now] at hla hsorted
      have hreq : requestsOf ip (Arrival.sweep s :: rest) = requestsOf ip rest := rfl
      rw [hreq] at hwin ⊢
      obtain ⟨c1, c2, -, c4⟩ := cleanup_outcome rl s ip
      have hkeep := c4 _ hv
      by_cases hdel : time.Sub s last > rl.window
      · have hgap : ¬ s - last ≤ rl.window := fun hle => Sub_le_of_nonneg hla hle hdel
        have hnone : requestsOf ip rest = [] := by
          apply List.eq_nil_iff_forall_not_mem.mpr
          intro r hr
          have h1 := hsorted.1 _ (requestsOf_mem ip rest r hr).1
          have h2 := hwin r hr
          simp only [Arrival.now] at h1
          omega
        simp only [observe]
        rw [observe_no_requests ip next rest _ hnone, hnone]
        simp
      · simp only [hdel, if_false] at hkeep
        have := ih (rl.cleanup s) last k t0 hkeep hk (by rw [c1]; exact hrate) ht0 hsorted.2
          hlast' (by rw [c2]; exact hwin)
        simp only [observe]
        rw [this, c1]

theorem observe_unseen (ip : String) (next : gin.Context → gin.Context) :
    ∀ (arrivals : List Arrival) (rl : rateLimiter),
      rl.visitors ip = none → 1 ≤ rl.rate → isInt64 rl.rate →
      arrivals.Pairwise (fun a b => a.now ≤ b.now) →
      (∀ first ∈ (requestsOf ip arrivals).head?,
        ∀ r ∈ requestsOf ip arrivals, r.1 ≤ first.1 + rl.window) →
      observe ip next rl arrivals =
        ((requestsOf ip arrivals).take rl.rate.toNat).map (fun r => (true, next r.2)) ++
        ((requestsOf ip arrivals).drop rl.rate.toNat).map
            (fun r => (false, tooManyRequests r.2)) := by
  intro arrivals
  induction arrivals with
  | nil => intros; simp [observe, requestsOf]
  | cons a rest ih =>
    intro rl hv hone hrate hsorted hwin
    rw [List.pairwise_cons] at hsorted
    cases a with
    | request t c =>
      simp only [Arrival.now] at hsorted
      by_cases hc : c.ClientIP = ip
      · have hreq : requestsOf ip (Arrival.request t c :: rest) = (t, c) :: requestsOf ip rest := by
          simp [requestsOf, hc]
        rw [hreq] at hwin ⊢
        have hallow : (rl.allow t ip).1 = true ∧
            (rl.allow t ip).2.visitors ip = some { lastSeen := t, count := 1 } ∧
            (rl.allow t ip).2.rate = rl.rate ∧ (rl.allow t ip).2.window = rl.window := by
          unfold rateLimiter.allow
          rw [hv]
          simp
        obtain ⟨a1, a2, a3, a4⟩ := hallow
        have hs : rl.rate.toNat = (rl.rate - 1).toNat + 1 := by omega
        have := observe_seen ip next rest (rl.allow t ip).2 t 1 t a2 (le_refl _)
          (by rw [a3]; exact hrate) (le_refl _) hsorted.2
          (fun b hb => hsorted.1 b hb)
          (fun r hr => by
            rw [a4]
            exact hwin (t, c) (by simp) r (List.mem_cons_of_mem _ hr))
        rw [a3] at this
        rw [hs]
        simp only [observe, RateLimit_eq, hc, a1, if_true]
        simp [this]
      · have hreq : requestsOf ip (Arrival.request t c :: rest) = requestsOf ip rest := by
          simp [requestsOf, hc]
        obtain ⟨f1, f2, f3⟩ := allow_other rl t hc
        rw [hreq] at hwin ⊢
        have := ih (rl.allow t c.ClientIP).2 (by rw [f1, hv]) (by rw [f2]; exact hone)
          (by rw [f2]; exact hrate) hsorted.2 (by rw [f3]; exact hwin)
        simp only [observe, RateLimit_eq, hc, if_false]
        rw [this, f2]
    | sweep s =>
      have hreq : requestsOf ip (Arrival.sweep s :: rest) = requestsOf ip rest := rfl
      rw [hreq] at hwin ⊢
      obtain ⟨c1, c2, c3, -⟩ := cleanup_outcome rl s ip
      have := ih (rl.cleanup s) (c3 hv) (by rw [c1]; exact hone) (by rw [c1]; exact hrate)
        hsorted.2 (by rw [c2]; exact hwin)
      simp only [observe]
      rw [this, c1]

/-- C9. A limiter with limit `N ≥ 1` meets requests and sweeps at non-decreasing times, `N + 1`
of the requests coming from an address `ip` it has not seen, all within the window of the first
of these.  Then `allow` returns true for the first `N` of them, for which the middleware runs
the rest of the chain, and false for the last, which the middleware answers with status 429 and
the chain aborted, whatever the rest of the chain is. -/
theorem RateLimit_rejects_request_over_limit (N : Nat) (rl : rateLimiter) (ip : String)
    (next : gin.Context → gin.Context) (arrivals : List Arrival)
    (hN : 1 ≤ N) (hrate : rl.rate = N) (hfits : isInt64 rl.rate)
    (hunseen : rl.visitors ip = none)
    (hsorted : arrivals.Pairwise (fun a b => a.now ≤ b.now))
    (hcount : (requestsOf ip arrivals).length = N + 1)
    (hwindow : ∀ first ∈ (requestsOf ip arrivals).head?,
      ∀ r ∈ requestsOf ip arrivals, r.1 ≤ first.1 + rl.window) :
    ∃ (allowed : List (Int × gin.Context)) (last : Int × gin.Context),
      requestsOf ip arrivals = allowed ++ [last] ∧
      allowed.length = N ∧
      observe ip next rl arrivals =
        allowed.map (fun r => (true, next r.2)) ++
          [(false, { last.2 with
              Status := some 429
              Body := [("error", "Rate Limit Exceeded"),
                       ("message", "Too many requests. Please try again later.")]
              Aborted := true })] := by
  have hobs := observe_unseen ip next arrivals rl hunseen (by omega) hfits hsorted hwindow
  have hN' : rl.rate.toNat = N := by omega
  rw [hN'] at hobs
  have hdrop : ((requestsOf ip arrivals).drop N).length = 1 := by
    rw [List.length_drop, hcount]; omega
  obtain ⟨last, hlast⟩ := List.length_eq_one.mp hdrop
  refine ⟨(requestsOf ip arrivals).take N, last, ?_, ?_, ?_⟩
  · rw [← hlast, List.take_append_drop]
  · rw [List.length_take, hcount]; omega
  · rw [hobs, hlast]; rfl

/-- C9 for a limit of two requests per window of 60 and the arrivals of `burst`: the requests
at times 0 and 20 pass, the one at time 60 is answered 429. -/
theorem RateLimit_rejects_request_over_limit_witness :
    ∃ (allowed : List (Int × gin.Context)) (last : Int × gin.Context),
      requestsOf "10.0.0.1" burst = allowed ++ [last] ∧
      allowed.length = 2 ∧
      observe "10.0.0.1" id (newRateLimiter 2 60) burst =
        allowed.map (fun r => (true, id r.2)) ++
          [(false, { last.2 with
              Status := some 429
              Body := [("error", "Rate Limit Exceeded"),
                       ("message", "Too many requests. Please try again later.")]
              Aborted := true })] :=
  RateLimit_rejects_request_over_limit 2 (newRateLimiter 2 60) "10.0.0.1" id burst
    (by decide) rfl (by decide) rfl (by decide) (by decide) (by decide)

theorem allow_outcome (rl : rateLimiter) (now : Int) (ip : String) :
    (rl.allow now ip).2.window = rl.window ∧ (rl.allow now ip).2.rate = rl.rate ∧
    ((rl.allow now ip).1 = true →
      ∃ n, (rl.allow now ip).2.visitors ip = some { lastSeen := now, count := n }) ∧
    ((rl.allow now ip).1 = false → (rl.allow now ip).2 = rl) := by
  unfold rateLimiter.allow
  rcases rl.visitors ip with _ | v
  · simp
  · dsimp only
    split_ifs <;> simp

theorem agrees_step (ip : String) (window : Int) (st : rateLimiter × History) (e : Event)
    (h : History.agrees ip window st) :
    History.agrees ip window (st.1.step e, st.2.step ip st.1 e) := by
  obtain ⟨rl, hist⟩ := st
  obtain ⟨hw, hv⟩ := h
  cases e with
  | request now a =>
    obtain ⟨o1, -, o3, o4⟩ := allow_outcome rl now a
    refine ⟨by simp only [rateLimiter.step]; rw [o1]; exact hw, ?_⟩
    intro v hvis
    simp only [rateLimiter.step, History.step] at hvis ⊢
    by_cases ha : a = ip
    · subst ha
      cases hd : (rl.allow now a).1 with
      | true =>
        obtain ⟨n, hn⟩ := o3 hd
        rw [hn] at hvis
        simp only [Option.some.injEq] at hvis
        subst hvis
        simp
      | false =>
        rw [o4 hd] at hvis
        simpa using hv v hvis
    · rw [(allow_other rl now ha).1] at hvis
      simpa [ha] using hv v hvis
  | sweep now =>
    refine ⟨hw, ?_⟩
    intro v hvis
    simp only [rateLimiter.step, rateLimiter.cleanup, History.step] at hvis ⊢
    rcases hrl : rl.visitors ip with _ | w
    · rw [hrl] at hvis; simp at hvis
    · rw [hrl] at hvis
      dsimp only at hvis
      split_ifs at hvis
      simp only [Option.some.injEq] at hvis
      subst hvis
      exact hv w hrl

theorem agrees_run (ip : String) (window : Int) :
    ∀ (events : List Event) (st : rateLimiter × History),
      History.agrees ip window st → History.agrees ip window (run ip st events) := by
  intro events
  induction events with
  | nil => intro st h; exact h
  | cons e rest ih => intro st h; exact ih _ (agrees_step ip window st e h)

/-- C10, as stated, fails: the window is measured from the last allowed request, not from the
request that set the count to 1.  With limit 2 and window 60, requests from one address at
times 0 and 50 are allowed and the first sets the count to 1; at time 70 the window has
elapsed since time 0, yet the request is rejected and the entry is left as it was. -/
theorem allow_rejects_after_window_start_elapsed :
    (reach 2 60 "10.0.0.1" [.request 0 "10.0.0.1", .request 50 "10.0.0.1"]).2.windowStart
      = some 0 ∧
    time.Sub 70 0 > 60 ∧
    ((reach 2 60 "10.0.0.1" [.request 0 "10.0.0.1", .request 50 "10.0.0.1"]).1.allow 70
      "10.0.0.1").1 = false ∧
    ((reach 2 60 "10.0.0.1" [.request 0 "10.0.0.1", .request 50 "10.0.0.1"]).1.allow 70
      "10.0.0.1").2.visitors "10.0.0.1" = some { lastSeen := 50, count := 2 } := by
  decide

/-- C10, amended. At any point of a run of requests and sweeps on a new limiter and for every
address and time `t`: if the address has no entry, or more than the window has elapsed since
the last allowed request of that address (every allowed request, not only the one that set the
count to 1, restarts the wait), then the request is allowed, the count of the address becomes
1 and its `lastSeen` becomes `t`. -/
theorem allow_resets_after_idle_window (rate window : Int) (events : List Event) (ip : String)
    (t : Int)
    (h : (reach rate window ip events).1.visitors ip = none ∨
      ∃ u, (reach rate window ip events).2.lastAllowed = some u ∧ time.Sub t u > window) :
    ((reach rate window ip events).1.allow t ip).1 = true ∧
    ((reach rate window ip events).1.allow t ip).2.visitors ip
      = some { lastSeen := t, count := 1 } := by
  have hinv : History.agrees ip window (reach rate window ip events) :=
    agrees_run ip window events _ ⟨rfl, fun v hv => by simp [newRateLimiter] at hv⟩
  obtain ⟨hw, hv⟩ := hinv
  unfold rateLimiter.allow
  rcases hvis : (reach rate window ip events).1.visitors ip with _ | v
  · simp
  · have hgt : time.Sub t v.lastSeen > (reach rate window ip events).1.window := by
      rcases h with h | ⟨u, hu, hgt⟩
      · rw [hvis] at h; simp at h
      · have := hv v hvis
        rw [hu] at this
        simp only [Option.some.injEq] at this
        rw [hw, ← this]; exact hgt
    simp [hgt]

/-- The amended C10 after two allowed requests at times 0 and 50, window 60: a request at time
111, more than the window after the last allowed one, starts a new count. -/
theorem allow_resets_after_idle_window_witness :
    ((reach 2 60 "10.0.0.1" [.request 0 "10.0.0.1", .request 50 "10.0.0.1"]).2.lastAllowed
        = some 50 ∧ time.Sub 111 50 > 60) ∧
    ((reach 2 60 "10.0.0.1" [.request 0 "10.0.0.1", .request 50 "10.0.0.1"]).1.allow 111
      "10.0.0.1").1 = true ∧
    ((reach 2 60 "10.0.0.1" [.request 0 "10.0.0.1", .request 50 "10.0.0.1"]).1.allow 111
      "10.0.0.1").2.visitors "10.0.0.1" = some { lastSeen := 111, count := 1 } :=
  ⟨by decide,
   allow_resets_after_idle_window 2 60 [.request 0 "10.0.0.1", .request 50 "10.0.0.1"]
     "10.0.0.1" 111 (Or.inr ⟨50, by decide, by decide⟩)⟩

end rateLimit

/-! ## CORS -/

section cors

open middleware

theorem Header_lookup_filter (h : http.Header) {key other : String} (hne : other ≠ key) :
    (h.filter (fun line => line.1 ≠ key)).lookup other = h.lookup other := by
  induction h with
  | nil => rfl
  | cons line rest ih =>
    obtain ⟨k, v⟩ := line
    by_cases hk : k = key
    · subst hk
      have hb : (other == k) = false := by simpa using hne
      simpa [List.filter_cons, List.lookup, hb] using ih
    · by_cases ho : other = k
      · subst ho
        simp [List.filter_cons, List.lookup, hk]
      · have hb : (other == k) = false := by simpa using ho
        simpa [List.filter_cons, List.lookup, hk, hb] using ih

theorem Header_Get_Set_same (h : http.Header) (key value : String) :
    (h.Set key value).Get key = value := by
  simp [http.Header.Set, http.Header.Get, List.lookup]

theorem Header_lookup_Set_other (h : http.Header) {key other : String} (value : String)
    (hne : other ≠ key) : List.lookup other (h.Set key value) = List.lookup other h := by
  have hb : (other == key) = false := by simpa using hne
  simp only [http.Header.Set, List.lookup, hb]
  exact Header_lookup_filter h hne

theorem Header_Get_Set_other (h : http.Header) {key other : String} (value : String)
    (hne : other ≠ key) : (h.Set key value).Get other = h.Get other := by
  unfold http.Header.Get
  rw [Header_lookup_Set_other h value hne]

theorem checkOrigin_allowed_iff (origin : String) (c : gin.Context) :
    ∀ allowedOrigins : List String,
      (CORS.checkOrigin origin c allowedOrigins).2 = true ↔
        ∃ entry ∈ allowedOrigins, entry = origin ∨ entry = "*" := by
  intro allowedOrigins
  induction allowedOrigins with
  | nil => simp [CORS.checkOrigin]
  | cons entry rest ih =>
    unfold CORS.checkOrigin
    by_cases h1 : entry = "*"
    · simp [h1]
    · by_cases h2 : origin = entry
      · simp [h1, h2]
      · have h2' : ¬ entry = origin := fun e => h2 e.symm
        simp only [h1, h2, if_false, ih, List.mem_cons, exists_eq_or_imp, h2', false_or]

theorem checkOrigin_of_not_allowed (origin : String) (c : gin.Context) :
    ∀ allowedOrigins : List String,
      (CORS.checkOrigin origin c allowedOrigins).2 = false →
        (CORS.checkOrigin origin c allowedOrigins).1 = c := by
  intro allowedOrigins
  induction allowedOrigins with
  | nil => intro _; rfl
  | cons entry rest ih =>
    unfold CORS.checkOrigin
    by_cases h1 : entry = "*"
    · simp [h1]
    · by_cases h2 : origin = entry
      · simp [h1, h2]
      · simpa [h1, h2] using ih

theorem checkOrigin_wildcard_first (origin : String) (c : gin.Context) :
    ∀ allowedOrigins : List String, "*" ∈ allowedOrigins →
      origin ∉ allowedOrigins.takeWhile (fun entry => entry ≠ "*") →
      CORS.checkOrigin origin c allowedOrigins =
        ({ c with Writer := c.Writer.Set "Access-Control-Allow-Origin" "*" }, true) := by
  intro allowedOrigins
  induction allowedOrigins with
  | nil => intro h; simp at h
  | cons entry rest ih =>
    intro hmem hnot
    unfold CORS.checkOrigin
    by_cases h1 : entry = "*"
    · simp [h1]
    · have hmem' : "*" ∈ rest := by
        rcases List.mem_cons.mp hmem with h | h
        · exact absurd h.symm h1
        · exact h
      simp only [List.takeWhile_cons, ne_eq, h1, not_false_eq_true, decide_True, if_true,
        List.mem_cons, not_or] at hnot
      simp only [h1, hnot.1, if_false]
      exact ih hmem' hnot.2

theorem checkOrigin_exact_first (origin : String) (c : gin.Context) :
    ∀ allowedOrigins : List String, origin ≠ "*" → origin ∈ allowedOrigins →
      "*" ∉ allowedOrigins.takeWhile (fun entry => entry ≠ origin) →
      CORS.checkOrigin origin c allowedOrigins =
        ({ c with
            Writer := (c.Writer.Set "Access-Control-Allow-Origin" origin).Set
              "Access-Control-Allow-Credentials" "true" }, true) := by
  intro allowedOrigins hstar
  induction allowedOrigins with
  | nil => intro h; simp at h
  | cons entry rest ih =>
    intro hmem hnot
    unfold CORS.checkOrigin
    by_cases h2 : origin = entry
    · subst h2
      simp [hstar]
    · have h2' : ¬ entry = origin := fun e => h2 e.symm
      have hmem' : origin ∈ rest := by
        rcases List.mem_cons.mp hmem with h | h
        · exact absurd h h2
        · exact h
      simp only [List.takeWhile_cons, ne_eq, h2', not_false_eq_true, decide_True, if_true,
        List.mem_cons, not_or] at hnot
      have h1 : ¬ entry = "*" := fun e => hnot.1 e.symm
      simp only [h1, h2, if_false]
      exact ih hmem' hnot.2

theorem checkOrigin_exact_before_wildcard (origin : String) (c : gin.Context) :
    ∀ allowedOrigins : List String,
      origin ∈ allowedOrigins.takeWhile (fun entry => entry ≠ "*") →
      CORS.checkOrigin origin c allowedOrigins =
        ({ c with
            Writer := (c.Writer.Set "Access-Control-Allow-Origin" origin).Set
              "Access-Control-Allow-Credentials" "true" }, true) := by
  intro allowedOrigins
  induction allowedOrigins with
  | nil => intro h; simp at h
  | cons entry rest ih =>
    intro hmem
    unfold CORS.checkOrigin
    by_cases h1 : entry = "*"
    · simp [h1] at hmem
    · simp only [List.takeWhile_cons, ne_eq, h1, not_false_eq_true, decide_True, if_true,
        List.mem_cons] at hmem
      by_cases h2 : origin = entry
      · subst h2; simp [h1]
      · simp only [h1, h2, if_false]
        rcases hmem with h | h
        · exact absurd h h2
        · exact ih h

theorem checkOrigin_Request (origin : String) (c : gin.Context) :
    ∀ allowedOrigins : List String,
      (CORS.checkOrigin origin c allowedOrigins).1.Request = c.Request := by
  intro allowedOrigins
  induction allowedOrigins with
  | nil => rfl
  | cons entry rest ih =>
    unfold CORS.checkOrigin
    split_ifs
    · rfl
    · rfl
    · exact ih

theorem setHeaders_Writer (c : gin.Context) :
    (CORS.setHeaders c).Writer.Get "Access-Control-Allow-Headers" = CORS.allowHeaders ∧
    (CORS.setHeaders c).Writer.Get "Access-Control-Allow-Methods" = CORS.allowMethods ∧
    (CORS.setHeaders c).Writer.Get "Access-Control-Max-Age" = "86400" ∧
    (CORS.setHeaders c).Writer.lookup "Access-Control-Allow-Origin" =
      c.Writer.lookup "Access-Control-Allow-Origin" ∧
    (CORS.setHeaders c).Writer.lookup "Access-Control-Allow-Credentials" =
      c.Writer.lookup "Access-Control-Allow-Credentials" := by
  unfold CORS.setHeaders
  dsimp only
  refine ⟨?_, ?_, ?_, ?_, ?_⟩
  · rw [Header_Get_Set_other _ _ (by decide), Header_Get_Set_other _ _ (by decide),
      Header_Get_Set_same]
  · rw [Header_Get_Set_other _ _ (by decide), Header_Get_Set_same]
  · rw [Header_Get_Set_same]
  · rw [Header_lookup_Set_other _ _ (by decide), Header_lookup_Set_other _ _ (by decide),
      Header_lookup_Set_other _ _ (by decide)]
  · rw [Header_lookup_Set_other _ _ (by decide), Header_lookup_Set_other _ _ (by decide),
      Header_lookup_Set_other _ _ (by decide)]

theorem setHeaders_Get_of_lookup (c : gin.Context) {key : String}
    (h : (CORS.setHeaders c).Writer.lookup key = c.Writer.lookup key) :
    (CORS.setHeaders c).Writer.Get key = c.Writer.Get key := by
  unfold http.Header.Get
  rw [h]

theorem CORS_of_refused (allowedOrigins : List String) (c : gin.Context)
    (h : CORS.originRefused allowedOrigins c) : CORS.rejects allowedOrigins c := by
  obtain ⟨h1, h2, h3⟩ := h
  intro next
  have hflag : (CORS.checkOrigin (c.Request.Header.Get "Origin") c allowedOrigins).2 = false := by
    rw [Bool.eq_false_iff]
    intro hf
    obtain ⟨entry, hmem, he⟩ := (checkOrigin_allowed_iff _ c allowedOrigins).mp hf
    rcases he with he | he
    · exact (h3 entry hmem).1 he
    · exact (h3 entry hmem).2 he
  have hctx := checkOrigin_of_not_allowed _ c allowedOrigins hflag
  have hlen : allowedOrigins.length > 0 := List.length_pos.mpr h2
  unfold CORS
  simp only [h1, if_false]
  rcases hco : CORS.checkOrigin (c.Request.Header.Get "Origin") c allowedOrigins with ⟨c1, flag⟩
  rw [hco] at hflag hctx
  simp only at hflag hctx
  subst hflag hctx
  simp [hlen]

theorem CORS_of_not_refused (allowedOrigins : List String) (c : gin.Context)
    (h : ¬ CORS.originRefused allowedOrigins c) :
    CORS.passesOn allowedOrigins c
      (CORS.setHeaders
        (if c.Request.Header.Get "Origin" = "" then
          { c with Writer := c.Writer.Set "Access-Control-Allow-Origin" "*" }
         else (CORS.checkOrigin (c.Request.Header.Get "Origin") c allowedOrigins).1)) := by
  intro next
  unfold CORS
  by_cases h1 : c.Request.Header.Get "Origin" = ""
  · simp only [h1, if_true]
    rfl
  · simp only [h1, if_false]
    have hreq := checkOrigin_Request (c.Request.Header.Get "Origin") c allowedOrigins
    have hnot : ¬ ((CORS.checkOrigin (c.Request.Header.Get "Origin") c allowedOrigins).2 = false
        ∧ allowedOrigins.length > 0) := by
      rintro ⟨hf, hlen⟩
      apply h
      refine ⟨h1, List.length_pos.mp hlen, ?_⟩
      intro entry hmem
      have := (checkOrigin_allowed_iff (c.Request.Header.Get "Origin") c allowedOrigins).not.mp
        (by rw [hf]; simp)
      push_neg at this
      exact this entry hmem
    rcases hco : CORS.checkOrigin (c.Request.Header.Get "Origin") c allowedOrigins with ⟨c1, flag⟩
    rw [hco] at hreq hnot
    simp only at hreq hnot
    have hcond : ¬ ((!flag) = true ∧ allowedOrigins.length > 0) := by
      intro hc
      exact hnot ⟨by simpa using hc.1, hc.2⟩
    simp only [hcond, if_false]
    unfold CORS.finish
    have : (CORS.setHeaders c1).Request = c.Request := by rw [← hreq]; rfl
    simp only [this]

theorem not_rejects_of_passesOn (allowedOrigins : List String) (c passed : gin.Context)
    (h : CORS.passesOn allowedOrigins c passed) : ¬ CORS.rejects allowedOrigins c := by
  intro hr
  have h1 := h (fun _ => { c with Status := none })
  rw [hr (fun _ => { c with Status := none })] at h1
  by_cases hm : c.Request.Method = "OPTIONS"
  · simp only [hm, if_true] at h1
    have := congrArg gin.Context.Status h1
    simp [gin.Context.AbortWithStatus] at this
  · simp only [hm, if_false] at h1
    have := congrArg gin.Context.Status h1
    simp [gin.Context.AbortWithStatus] at this

theorem rejects_iff_refused (allowedOrigins : List String) (c : gin.Context) :
    CORS.rejects allowedOrigins c ↔ CORS.originRefused allowedOrigins c := by
  constructor
  · intro hr
    by_contra hn
    exact not_rejects_of_passesOn _ _ _ (CORS_of_not_refused allowedOrigins c hn) hr
  · exact CORS_of_refused allowedOrigins c

/-- C11. `CORS` aborts with status 403, without running the rest of the chain, if and only if
the `Origin` header is non-empty, the allow-list is non-empty and no entry is the origin or
`*`; otherwise it lets the request through (rest of the chain, or 204 for `OPTIONS`).  With an
empty allow-list no request is rejected. -/
theorem CORS_rejects_iff (allowedOrigins : List String) (c : gin.Context) :
    (CORS.rejects allowedOrigins c ↔
      (c.Request.Header.Get "Origin" ≠ "" ∧ allowedOrigins ≠ [] ∧
        ∀ entry ∈ allowedOrigins, entry ≠ c.Request.Header.Get "Origin" ∧ entry ≠ "*")) ∧
    (CORS.rejects allowedOrigins c → ∀ next,
      (CORS allowedOrigins next c).Status = some 403 ∧
      (CORS allowedOrigins next c).Aborted = true) ∧
    (¬ CORS.rejects allowedOrigins c → ∃ passed, CORS.passesOn allowedOrigins c passed) ∧
    ¬ CORS.rejects [] c := by
  refine ⟨rejects_iff_refused allowedOrigins c, ?_, ?_, ?_⟩
  · intro hr next
    rw [hr next]
    exact ⟨rfl, rfl⟩
  · intro hn
    have hn' : ¬ CORS.originRefused allowedOrigins c :=
      fun h => hn ((rejects_iff_refused allowedOrigins c).mpr h)
    exact ⟨_, CORS_of_not_refused allowedOrigins c hn'⟩
  · intro hr
    have := (rejects_iff_refused [] c).mp hr
    exact this.2.1 rfl

/-- C14. Without an `Origin` header, whatever the allow-list, `CORS` sets
`Access-Control-Allow-Origin` to `*` and lets the request through: it is not rejected. -/
theorem CORS_without_origin (allowedOrigins : List String) (c : gin.Context)
    (horigin : c.Request.Header.Get "Origin" = "") :
    ¬ CORS.rejects allowedOrigins c ∧
    ∃ passed, CORS.passesOn allowedOrigins c passed ∧
      passed.Writer.Get "Access-Control-Allow-Origin" = "*" := by
  have hn : ¬ CORS.originRefused allowedOrigins c := fun h => h.1 horigin
  have hp := CORS_of_not_refused allowedOrigins c hn
  refine ⟨not_rejects_of_passesOn _ _ _ hp, _, hp, ?_⟩
  simp only [horigin, if_true]
  rw [setHeaders_Get_of_lookup _ (setHeaders_Writer _).2.2.2.1]
  exact Header_Get_Set_same _ _ _

/-- C14 on the request of the tests: `GET` without `Origin`, allow-list
`http://localhost:3000`. -/
theorem CORS_without_origin_witness :
    ¬ CORS.rejects ["http://localhost:3000"] (requestWithoutOrigin "GET") ∧
    ∃ passed, CORS.passesOn ["http://localhost:3000"] (requestWithoutOrigin "GET") passed ∧
      passed.Writer.Get "Access-Control-Allow-Origin" = "*" :=
  CORS_without_origin ["http://localhost:3000"] (requestWithoutOrigin "GET") (by decide)

/-- C12, as stated, fails: the loop stops at the first entry that is `*` or the origin.  With
the allow-list `http://localhost:3000`, `*` and that origin, the response echoes the origin and
sets `Access-Control-Allow-Credentials` to `true`. -/
theorem CORS_wildcard_after_exact_entry :
    "*" ∈ ["http://localhost:3000", "*"] ∧
    (requestWithOrigin "GET" "http://localhost:3000").Request.Header.Get "Origin"
      = "http://localhost:3000" ∧
    (CORS ["http://localhost:3000", "*"] id
        (requestWithOrigin "GET" "http://localhost:3000")).Writer.Get
      "Access-Control-Allow-Origin" = "http://localhost:3000" ∧
    (CORS ["http://localhost:3000", "*"] id
        (requestWithOrigin "GET" "http://localhost:3000")).Writer.Get
      "Access-Control-Allow-Credentials" = "true" := by
  decide

/-- C12, amended. For a request with an `Origin` and an allow-list containing `*`, the request
is not rejected.  When no entry before the first `*` equals the origin,
`Access-Control-Allow-Origin` is `*` and `Access-Control-Allow-Credentials` is left as it was
(unset if it was unset); when such an entry exists, the origin is echoed and
`Access-Control-Allow-Credentials` is `true`. -/
theorem CORS_wildcard (allowedOrigins : List String) (c : gin.Context)
    (horigin : c.Request.Header.Get "Origin" ≠ "") (hstar : "*" ∈ allowedOrigins) :
    ¬ CORS.rejects allowedOrigins c ∧
    ∃ passed, CORS.passesOn allowedOrigins c passed ∧
      (c.Request.Header.Get "Origin" ∉ allowedOrigins.takeWhile (fun entry => entry ≠ "*") →
        passed.Writer.Get "Access-Control-Allow-Origin" = "*" ∧
        passed.Writer.lookup "Access-Control-Allow-Credentials" =
          c.Writer.lookup "Access-Control-Allow-Credentials") ∧
      (c.Request.Header.Get "Origin" ∈ allowedOrigins.takeWhile (fun entry => entry ≠ "*") →
        passed.Writer.Get "Access-Control-Allow-Origin" = c.Request.Header.Get "Origin" ∧
        passed.Writer.Get "Access-Control-Allow-Credentials" = "true") := by
  have hn : ¬ CORS.originRefused allowedOrigins c := fun h => (h.2.2 "*" hstar).2 rfl
  have hp := CORS_of_not_refused allowedOrigins c hn
  refine ⟨not_rejects_of_passesOn _ _ _ hp, _, hp, ?_, ?_⟩
  · intro hfirst
    simp only [horigin, if_false]
    rw [checkOrigin_wildcard_first _ c allowedOrigins hstar hfirst]
    refine ⟨?_, ?_⟩
    · rw [setHeaders_Get_of_lookup _ (setHeaders_Writer _).2.2.2.1]
      exact Header_Get_Set_same _ _ _
    · rw [(setHeaders_Writer _).2.2.2.2]
      exact Header_lookup_Set_other _ _ (by decide)
  · intro hfirst
    simp only [horigin, if_false]
    rw [checkOrigin_exact_before_wildcard _ c allowedOrigins hfirst]
    refine ⟨?_, ?_⟩
    · rw [setHeaders_Get_of_lookup _ (setHeaders_Writer _).2.2.2.1]
      dsimp only
      rw [Header_Get_Set_other _ _ (by decide)]
      exact Header_Get_Set_same _ _ _
    · rw [setHeaders_Get_of_lookup _ (setHeaders_Writer _).2.2.2.2]
      exact Header_Get_Set_same _ _ _

/-- The amended C12 on the wildcard request of the tests. -/
theorem CORS_wildcard_witness :
    ¬ CORS.rejects ["*"] (requestWithOrigin "GET" "http://any-site.com") ∧
    ∃ passed, CORS.passesOn ["*"] (requestWithOrigin "GET" "http://any-site.com") passed ∧
      passed.Writer.Get "Access-Control-Allow-Origin" = "*" ∧
      passed.Writer.lookup "Access-Control-Allow-Credentials" = none := by
  obtain ⟨h1, passed, h2, h3, -⟩ :=
    CORS_wildcard ["*"] (requestWithOrigin "GET" "http://any-site.com") (by decide) (by decide)
  exact ⟨h1, passed, h2, (h3 (by decide)).1, (h3 (by decide)).2⟩

/-- C13, as stated, fails in two ways.  With the allow-list `*`, `http://localhost:3000` and
that origin, the wildcard is met first: the response carries `*` and no credentials header.
And an `OPTIONS` request from an allowed origin is aborted (with 204). -/
theorem CORS_exact_entry_after_wildcard :
    "http://localhost:3000" ∈ ["*", "http://localhost:3000"] ∧
    (CORS ["*", "http://localhost:3000"] id
        (requestWithOrigin "GET" "http://localhost:3000")).Writer.Get
      "Access-Control-Allow-Origin" = "*" ∧
    (CORS ["*", "http://localhost:3000"] id
        (requestWithOrigin "GET" "http://localhost:3000")).Writer.lookup
      "Access-Control-Allow-Credentials" = none ∧
    (CORS ["http://localhost:3000"] id
        (requestWithOrigin "OPTIONS" "http://localhost:3000")).Aborted = true := by
  decide

/-- C13, amended. For a request whose `Origin` is non-empty, is not `*`, and equals an
allow-list entry that no `*` entry precedes, `Access-Control-Allow-Origin` is that origin,
`Access-Control-Allow-Credentials` is `true` and the request is not rejected: the rest of the
chain runs, unless the method is `OPTIONS`, which is answered 204. -/
theorem CORS_exact_origin (allowedOrigins : List String) (c : gin.Context)
    (horigin : c.Request.Header.Get "Origin" ≠ "")
    (hnotstar : c.Request.Header.Get "Origin" ≠ "*")
    (hmem : c.Request.Header.Get "Origin" ∈ allowedOrigins)
    (hfirst : "*" ∉ allowedOrigins.takeWhile
      (fun entry => entry ≠ c.Request.Header.Get "Origin")) :
    ¬ CORS.rejects allowedOrigins c ∧
    ∃ passed, CORS.passesOn allowedOrigins c passed ∧
      passed.Writer.Get "Access-Control-Allow-Origin" = c.Request.Header.Get "Origin" ∧
      passed.Writer.Get "Access-Control-Allow-Credentials" = "true" ∧
      (c.Request.Method ≠ "OPTIONS" → ∀ next, CORS allowedOrigins next c = next passed) := by
  have hn : ¬ CORS.originRefused allowedOrigins c :=
    fun h => (h.2.2 _ hmem).1 rfl
  have hp := CORS_of_not_refused allowedOrigins c hn
  refine ⟨not_rejects_of_passesOn _ _ _ hp, _, hp, ?_, ?_, ?_⟩
  · simp only [horigin, if_false]
    rw [checkOrigin_exact_first _ c allowedOrigins hnotstar hmem hfirst]
    rw [setHeaders_Get_of_lookup _ (setHeaders_Writer _).2.2.2.1]
    dsimp only
    rw [Header_Get_Set_other _ _ (by decide)]
    exact Header_Get_Set_same _ _ _
  · simp only [horigin, if_false]
    rw [checkOrigin_exact_first _ c allowedOrigins hnotstar hmem hfirst]
    rw [setHeaders_Get_of_lookup _ (setHeaders_Writer _).2.2.2.2]
    exact Header_Get_Set_same _ _ _
  · intro hm next
    have := hp next
    simpa [hm] using this

/-- The amended C13 on the allowed-origin request of the tests. -/
theorem CORS_exact_origin_witness :
    ¬ CORS.rejects ["http://localhost:3000", "http://localhost:8080"]
        (requestWithOrigin "GET" "http://localhost:3000") ∧
    ∃ passed, CORS.passesOn ["http://localhost:3000", "http://localhost:8080"]
        (requestWithOrigin "GET" "http://localhost:3000") passed ∧
      passed.Writer.Get "Access-Control-Allow-Origin" = "http://localhost:3000" ∧
      passed.Writer.Get "Access-Control-Allow-Credentials" = "true" := by
  obtain ⟨h1, passed, h2, h3, h4, -⟩ :=
    CORS_exact_origin ["http://localhost:3000", "http://localhost:8080"]
      (requestWithOrigin "GET" "http://localhost:3000")
      (by decide) (by decide) (by decide) (by decide)
  exact ⟨h1, passed, h2, h3, h4⟩

/-- C15, as stated, fails: a request rejected by the origin check returns before the three
headers are set.  The rejected request of the tests carries none of them. -/
theorem CORS_rejected_without_headers :
    (CORS ["http://localhost:3000"] id
        (requestWithOrigin "GET" "http://malicious-site.com")).Status = some 403 ∧
    (CORS ["http://localhost:3000"] id
        (requestWithOrigin "GET" "http://malicious-site.com")).Writer.lookup
      "Access-Control-Allow-Headers" = none ∧
    (CORS ["http://localhost:3000"] id
        (requestWithOrigin "GET" "http://malicious-site.com")).Writer.lookup
      "Access-Control-Allow-Methods" = none ∧
    (CORS ["http://localhost:3000"] id
        (requestWithOrigin "GET" "http://malicious-site.com")).Writer.Get
      "Access-Control-Max-Age" ≠ "86400" := by
  decide

/-- C15, amended. For every allow-list and every request the origin check does not refuse,
the context `CORS` passes on (to the rest of the chain, or aborted with 204 for `OPTIONS`)
carries `Access-Control-Allow-Headers`, `Access-Control-Allow-Methods` and
`Access-Control-Max-Age` = `86400`; for a refused request the response header is left as it
was and the status is 403. -/
theorem CORS_headers_unless_refused (allowedOrigins : List String) (c : gin.Context) :
    (¬ CORS.originRefused allowedOrigins c →
      ∃ passed, CORS.passesOn allowedOrigins c passed ∧
        passed.Writer.Get "Access-Control-Allow-Headers" = CORS.allowHeaders ∧
        passed.Writer.Get "Access-Control-Allow-Methods"
          = "POST, OPTIONS, GET, PUT, DELETE, PATCH" ∧
        passed.Writer.Get "Access-Control-Max-Age" = "86400") ∧
    (CORS.originRefused allowedOrigins c → ∀ next,
      (CORS allowedOrigins next c).Writer = c.Writer ∧
      (CORS allowedOrigins next c).Status = some 403) := by
  constructor
  · intro hn
    have hp := CORS_of_not_refused allowedOrigins c hn
    obtain ⟨h1, h2, h3, -, -⟩ := setHeaders_Writer
      (if c.Request.Header.Get "Origin" = "" then
          { c with Writer := c.Writer.Set "Access-Control-Allow-Origin" "*" }
         else (CORS.checkOrigin (c.Request.Header.Get "Origin") c allowedOrigins).1)
    exact ⟨_, hp, h1, h2, h3⟩
  · intro hr next
    rw [CORS_of_refused allowedOrigins c hr next]
    exact ⟨rfl, rfl⟩

/-- C16, as stated, fails: the origin check comes first.  An `OPTIONS` request from an origin
that is not allowed is answered 403, not 204. -/
theorem CORS_options_from_refused_origin :
    (requestWithOrigin "OPTIONS" "http://malicious-site.com").Request.Method = "OPTIONS" ∧
    (CORS ["http://localhost:3000"] id
        (requestWithOrigin "OPTIONS" "http://malicious-site.com")).Status = some 403 ∧
    (CORS ["http://localhost:3000"] id
        (requestWithOrigin "OPTIONS" "http://malicious-site.com")).Status ≠ some 204 := by
  decide

/-- C16, amended. An `OPTIONS` request never reaches the rest of the chain: the outcome does
not depend on it and the chain is aborted, with status 204 when the origin check does not
refuse the request and with status 403 when it does. -/
theorem CORS_options_short_circuit (allowedOrigins : List String) (c : gin.Context)
    (hmethod : c.Request.Method = "OPTIONS") :
    ∃ answer : gin.Context,
      (∀ next, CORS allowedOrigins next c = answer) ∧
      answer.Aborted = true ∧
      answer.Status = some (if CORS.originRefused allowedOrigins c then 403 else 204) := by
  by_cases hr : CORS.originRefused allowedOrigins c
  · refine ⟨c.AbortWithStatus 403, CORS_of_refused allowedOrigins c hr, rfl, ?_⟩
    simp [hr, gin.Context.AbortWithStatus]
  · have hp := CORS_of_not_refused allowedOrigins c hr
    refine ⟨gin.Context.AbortWithStatus (CORS.setHeaders
        (if c.Request.Header.Get "Origin" = "" then
          { c with Writer := c.Writer.Set "Access-Control-Allow-Origin" "*" }
         else (CORS.checkOrigin (c.Request.Header.Get "Origin") c allowedOrigins).1)) 204,
      fun next => ?_, rfl, ?_⟩
    · have := hp next
      simpa [hmethod] using this
    · simp [hr, gin.Context.AbortWithStatus]

/-- The amended C16 on the `OPTIONS` request of the tests. -/
theorem CORS_options_short_circuit_witness :
    ∃ answer : gin.Context,
      (∀ next, CORS ["http://localhost:3000"] next (requestWithoutOrigin "OPTIONS") = answer) ∧
      answer.Aborted = true ∧ answer.Status = some 204 := by
  obtain ⟨answer, h1, h2, h3⟩ :=
    CORS_options_short_circuit ["http://localhost:3000"] (requestWithoutOrigin "OPTIONS") rfl
  exact ⟨answer, h1, h2, by rw [h3]; decide⟩

end cors

/-! ## Car service: fetch, delete, create and error propagation -/

section carServiceErrors

open service repository mocks

/-- C17. `GetCarByID` makes one gateway call, `FindByID` with the id.  When that returns a
record, the result is a response with the id, name and engine version of the record and no
error; when it signals NotFound, the result is no record and `service.ErrCarNotFound`. -/
theorem GetCarByID_fetch_or_NotFound {σ : Type} (format : Time → String → String)
    (repo : CarRepository σ) (id : UUID) (s : σ) :
    (GetCarByID format repo.recording id (s, [])).2.2 = [Call.FindByID id] ∧
    (∀ car s', repo.FindByID id s = (.ok car, s') →
      ∃ resp, GetCarByID format repo id s = (.ok resp, s') ∧
        resp.ID = car.ID ∧ resp.Name = car.Name ∧ resp.EngineVersion = car.EngineVersion) ∧
    (∀ err s', repo.FindByID id s = (.error err, s') →
      errors.Is err repository.ErrCarNotFound = true →
      GetCarByID format repo id s = (.error service.ErrCarNotFound, s')) ∧
    (GetCarByID format (mockWith 0 [.error repository.ErrCarNotFound]).repo id 0).1
      = .error service.ErrCarNotFound := by
  refine ⟨?_, ?_, ?_, rfl⟩
  · unfold GetCarByID
    simp only [CarRepository.recording]
    rcases repo.FindByID id s with ⟨err | car, s1⟩
    · dsimp only
      split_ifs <;> rfl
    · rfl
  · intro car s' h
    unfold GetCarByID
    rw [h]
    exact ⟨_, rfl, rfl, rfl, rfl⟩
  · intro err s' h hnf
    unfold GetCarByID
    rw [h]
    simp [hnf]

/-- C18. `DeleteCar` makes one gateway call, `Delete` with the id; it returns `nil` exactly
when that call returns `nil`, and `service.ErrCarNotFound` when that call signals NotFound. -/
theorem DeleteCar_delegates {σ : Type} (repo : CarRepository σ) (id : UUID) (s : σ) :
    (DeleteCar repo.recording id (s, [])).2.2 = [Call.Delete id] ∧
    ((DeleteCar repo.recording id (s, [])).1 = none ↔ (repo.Delete id s).1 = none) ∧
    (∀ err, (repo.Delete id s).1 = some err →
      errors.Is err repository.ErrCarNotFound = true →
      (DeleteCar repo.recording id (s, [])).1 = some service.ErrCarNotFound) ∧
    (DeleteCar (failingMock repository.ErrCarNotFound).repo id 0).1
      = some service.ErrCarNotFound := by
  refine ⟨?_, ?_, ?_, rfl⟩
  · unfold DeleteCar
    simp only [CarRepository.recording]
    rcases repo.Delete id s with ⟨_ | err, s1⟩
    · rfl
    · dsimp only
      split_ifs <;> rfl
  · unfold DeleteCar
    simp only [CarRepository.recording]
    rcases repo.Delete id s with ⟨_ | err, s1⟩
    · simp
    · dsimp only
      split_ifs <;> simp
  · intro err h hnf
    unfold DeleteCar
    simp only [CarRepository.recording]
    rcases hd : repo.Delete id s with ⟨r, s1⟩
    rw [hd] at h
    simp only at h
    subst h
    simp [hnf]

/-- C19. `CreateCar` makes one gateway call, `Create`, on a record with the request's name and
engine version and the zero id.  When that call succeeds, having stamped an id and timestamps
on the record, the response has that id and the request's name and engine version; in general
the response shows id, name and engine version of the record as the gateway left it. -/
theorem CreateCar_shapes_created_record {σ : Type} (format : Time → String → String)
    (repo : CarRepository σ) (req : dto.CreateCarRequest) (s : σ) :
    (CreateCar format repo.recording req (s, [])).2.2 =
      [Call.Create { ID := 0, Name := req.Name, EngineVersion := req.EngineVersion,
                     CreatedAt := 0, UpdatedAt := 0, DeletedAt := none }] ∧
    (∀ (newID : UUID) (createdAt updatedAt : Time) (s' : σ),
      repo.Create { ID := 0, Name := req.Name, EngineVersion := req.EngineVersion,
                    CreatedAt := 0, UpdatedAt := 0, DeletedAt := none } s
        = (({ ID := newID, Name := req.Name, EngineVersion := req.EngineVersion,
              CreatedAt := createdAt, UpdatedAt := updatedAt, DeletedAt := none }, none), s') →
      CreateCar format repo req s =
        (.ok { ID := newID, Name := req.Name, EngineVersion := req.EngineVersion,
               CreatedAt := format createdAt timeLayout,
               UpdatedAt := format updatedAt timeLayout }, s')) ∧
    (∀ (left : entity.Car) (s' : σ),
      repo.Create { ID := 0, Name := req.Name, EngineVersion := req.EngineVersion,
                    CreatedAt := 0, UpdatedAt := 0, DeletedAt := none } s
        = ((left, none), s') →
      ∃ resp, CreateCar format repo req s = (.ok resp, s') ∧
        resp.ID = left.ID ∧ resp.Name = left.Name ∧
        resp.EngineVersion = left.EngineVersion) := by
  refine ⟨?_, ?_, ?_⟩
  · unfold CreateCar
    simp only [CarRepository.recording]
    rcases repo.Create _ s with ⟨⟨left, _ | err⟩, s1⟩ <;> rfl
  · intro newID createdAt updatedAt s' h
    unfold CreateCar
    simp only [h]
    rfl
  · intro left s' h
    unfold CreateCar
    simp only [h]
    exact ⟨_, rfl, rfl, rfl, rfl⟩

/-- C19 on the success test: the request for a Honda Civic 2.0 and the mock that stamps id 42
and the timestamps. -/
theorem CreateCar_shapes_created_record_witness :
    (CreateCar formatNanos stampingMock.repo.recording ⟨"Honda Civic", "2.0"⟩ (0, [])).2.2 =
      [Call.Create { ID := 0, Name := "Honda Civic", EngineVersion := "2.0",
                     CreatedAt := 0, UpdatedAt := 0, DeletedAt := none }] ∧
    CreateCar formatNanos stampingMock.repo ⟨"Honda Civic", "2.0"⟩ 0 =
      (.ok { ID := 42, Name := "Honda Civic", EngineVersion := "2.0",
             CreatedAt := formatNanos 1000 timeLayout,
             UpdatedAt := formatNanos 1000 timeLayout }, 0) :=
  ⟨(CreateCar_shapes_created_record formatNanos stampingMock.repo ⟨"Honda Civic", "2.0"⟩ 0).1,
   (CreateCar_shapes_created_record formatNanos stampingMock.repo
      ⟨"Honda Civic", "2.0"⟩ 0).2.1 42 1000 1000 0 rfl⟩

/-- The record `UpdateCar` builds from the fetched one and the request. -/
theorem UpdateCar_merged_eq (car : entity.Car) (req : dto.UpdateCarRequest) :
    (if req.EngineVersion ≠ "" then
        { (if req.Name ≠ "" then { car with Name := req.Name } else car) with
          EngineVersion := req.EngineVersion }
      else (if req.Name ≠ "" then { car with Name := req.Name } else car)) =
      { car with
        Name := if req.Name ≠ "" then req.Name else car.Name
        EngineVersion :=
          if req.EngineVersion ≠ "" then req.EngineVersion else car.EngineVersion } := by
  split_ifs <;> rfl

/-- C20. An error of the gateway that is not its NotFound comes back from the service
operation as the same error value, with no result: from `Create` in `CreateCar`, `FindByID` in
`GetCarByID`, `FindAll` in `GetAllCars`, `Delete` in `DeleteCar`, and in `UpdateCar` from the
initial `FindByID`, from `Update` and from the `FindByID` after the update. -/
theorem gateway_error_propagates {σ : Type} (format : Time → String → String)
    (repo : CarRepository σ) (err : GoError)
    (hother : errors.Is err repository.ErrCarNotFound = false) :
    (∀ req s s' left,
      repo.Create { ID := 0, Name := req.Name, EngineVersion := req.EngineVersion,
                    CreatedAt := 0, UpdatedAt := 0, DeletedAt := none } s
        = ((left, some err), s') →
      CreateCar format repo req s = (.error err, s')) ∧
    (∀ id s s', repo.FindByID id s = (.error err, s') →
      GetCarByID format repo id s = (.error err, s')) ∧
    (∀ p s s', repo.FindAll p.SetDefaults s = (.error err, s') →
      GetAllCars format repo p s = (.error err, s')) ∧
    (∀ id s s', repo.Delete id s = (some err, s') →
      DeleteCar repo id s = (some err, s')) ∧
    (∀ id req s s', repo.FindByID id s = (.error err, s') →
      UpdateCar format repo id req s = (.error err, s')) ∧
    (∀ id req s s1 s2 car, repo.FindByID id s = (.ok car, s1) →
      repo.Update
        { car with
          Name := if req.Name ≠ "" then req.Name else car.Name
          EngineVersion :=
            if req.EngineVersion ≠ "" then req.EngineVersion else car.EngineVersion } s1
        = (some err, s2) →
      UpdateCar format repo id req s = (.error err, s2)) ∧
    (∀ id req s s1 s2 s3 car, repo.FindByID id s = (.ok car, s1) →
      repo.Update
        { car with
          Name := if req.Name ≠ "" then req.Name else car.Name
          EngineVersion :=
            if req.EngineVersion ≠ "" then req.EngineVersion else car.EngineVersion } s1
        = (none, s2) →
      repo.FindByID id s2 = (.error err, s3) →
      UpdateCar format repo id req s = (.error err, s3)) := by
  refine ⟨?_, ?_, ?_, ?_, ?_, ?_, ?_⟩
  · intro req s s' left h
    unfold CreateCar
    simp only [h]
  · intro id s s' h
    unfold GetCarByID
    simp [h, hother]
  · intro p s s' h
    unfold GetAllCars
    simp only [h]
  · intro id s s' h
    unfold DeleteCar
    simp [h, hother]
  · intro id req s s' h
    unfold UpdateCar
    simp [h, hother]
  · intro id req s s1 s2 car hf hu
    unfold UpdateCar
    simp only [hf, UpdateCar_merged_eq, hu]
    simp [hother]
  · intro id req s s1 s2 s3 car hf hu hf2
    unfold UpdateCar
    simp only [hf, UpdateCar_merged_eq, hu, hf2]

/-- C20 on the failure tests: mocks whose calls fail with a database error. -/
theorem gateway_error_propagates_witness :
    errors.Is (.other "database error") repository.ErrCarNotFound = false ∧
    CreateCar formatNanos (failingMock (.other "database error")).repo ⟨"Honda Civic", "2.0"⟩ 0
      = (.error (.other "database error"), 0) ∧
    GetCarByID formatNanos (failingMock (.other "database error")).repo 7 0
      = (.error (.other "database error"), 1) ∧
    GetAllCars formatNanos (failingMock (.other "database error")).repo ⟨1, 10, "", ""⟩ 0
      = (.error (.other "database error"), 0) ∧
    DeleteCar (failingMock (.other "database error")).repo 7 0
      = (some (.other "database error"), 0) ∧
    UpdateCar formatNanos (updateFailingMock (.other "database error")).repo 7
        ⟨"Updated Name", ""⟩ 0
      = (.error (.other "database error"), 1) := by
  obtain ⟨h1, h2, h3, h4, -, h6, -⟩ :=
    gateway_error_propagates formatNanos (failingMock (.other "database error")).repo
      (.other "database error") rfl
  obtain ⟨-, -, -, -, -, k6, -⟩ :=
    gateway_error_propagates formatNanos (updateFailingMock (.other "database error")).repo
      (.other "database error") rfl
  exact ⟨rfl, h1 ⟨"Honda Civic", "2.0"⟩ 0 0 _ rfl, h2 7 0 1 rfl, h3 ⟨1, 10, "", ""⟩ 0 0 rfl,
    h4 7 0 0 rfl, k6 7 ⟨"Updated Name", ""⟩ 0 1 1 hondaCivic rfl rfl⟩

end carServiceErrors
/-! ## The listing of `GetAllCars` (C25) -/

section listing

open service repository mocks

/-- C25. When the gateway's `FindAll` returns a list of records, `GetAllCars` returns `Data`
of the same length, whose i-th element is the shaped response of the i-th record, with the
id, name and engine version of that record; an empty list gives an empty `Data`. -/
theorem GetAllCars_Data_shapes_each_record {σ : Type} (format : Time → String → String)
    (repo : CarRepository σ) (p : dto.PaginationRequest) (s s' : σ)
    (cars : List entity.Car) (total : Int)
    (hfind : repo.FindAll p.SetDefaults s = (.ok (cars, total), s')) :
    ∃ resp, GetAllCars format repo p s = (.ok resp, s') ∧
      resp.Data = cars.map (entityToResponse format) ∧
      resp.Data.length = cars.length ∧
      (∀ i : Nat, resp.Data[i]? = (cars[i]?).map (entityToResponse format)) ∧
      (∀ (i : Nat) (car : entity.Car), cars[i]? = some car →
        ∃ r, resp.Data[i]? = some r ∧
          r.ID = car.ID ∧ r.Name = car.Name ∧ r.EngineVersion = car.EngineVersion) ∧
      (cars = [] → resp.Data = []) := by
  unfold GetAllCars
  simp only [hfind]
  refine ⟨_, rfl, rfl, ?_, ?_, ?_, ?_⟩
  · simp
  · intro i
    simp
  · intro i car hi
    refine ⟨entityToResponse format car, ?_, rfl, rfl, rfl⟩
    simp [hi]
  · intro h
    simp [h]

/-- The listing of two records, and the listing of none. -/
theorem GetAllCars_Data_shapes_each_record_witness :
    (listingMock.repo.FindAll
        ({ Page := 1, PageSize := 10, SortBy := "", SortDir := "" } :
          dto.PaginationRequest).SetDefaults 0
      = (.ok ([hondaCivic, toyotaCorolla], 2), 0)) ∧
    ∃ resp, GetAllCars formatNanos listingMock.repo
        { Page := 1, PageSize := 10, SortBy := "", SortDir := "" } 0 = (.ok resp, 0) ∧
      resp.Data = [hondaCivic, toyotaCorolla].map (entityToResponse formatNanos) ∧
      resp.Data.length = [hondaCivic, toyotaCorolla].length ∧
      (∀ i : Nat, resp.Data[i]? =
        ([hondaCivic, toyotaCorolla][i]?).map (entityToResponse formatNanos)) ∧
      (∀ (i : Nat) (car : entity.Car), [hondaCivic, toyotaCorolla][i]? = some car →
        ∃ r, resp.Data[i]? = some r ∧
          r.ID = car.ID ∧ r.Name = car.Name ∧ r.EngineVersion = car.EngineVersion) ∧
      ([hondaCivic, toyotaCorolla] = [] → resp.Data = []) :=
  ⟨rfl, GetAllCars_Data_shapes_each_record formatNanos listingMock.repo _ 0 0 _ 2 rfl⟩

end listing

/-! ## The gateway over the store (C21) -/

section gateway

open repository

theorem carRepository_Update_outcome {σ : Type} (db : gorm.DB σ) (car : entity.Car) (s : σ) :
    ((NewCarRepository db).Update car s).1 =
      if (db.Updates car.ID car.Name car.EngineVersion s).1.Error ≠ none then
        (db.Updates car.ID car.Name car.EngineVersion s).1.Error
      else if (db.Updates car.ID car.Name car.EngineVersion s).1.RowsAffected = 0 then
        some ErrCarNotFound
      else none := by
  show (carRepository.Update db car s).1 = _
  unfold carRepository.Update
  rcases db.Updates car.ID car.Name car.EngineVersion s with ⟨result, s1⟩
  dsimp only
  split_ifs <;> rfl

theorem carRepository_Delete_outcome {σ : Type} (db : gorm.DB σ) (id : UUID) (s : σ) :
    ((NewCarRepository db).Delete id s).1 =
      if (db.Delete id s).1.Error ≠ none then (db.Delete id s).1.Error
      else if (db.Delete id s).1.RowsAffected = 0 then some ErrCarNotFound
      else none := by
  show (carRepository.Delete db id s).1 = _
  unfold carRepository.Delete
  rcases db.Delete id s with ⟨result, s1⟩
  dsimp only
  split_ifs <;> rfl

theorem rows_outcome (result : gorm.Result) :
    (∀ err, result.Error = some err →
      (if result.Error ≠ none then result.Error
        else if result.RowsAffected = 0 then some ErrCarNotFound else none) = some err) ∧
    (result.Error = none →
      ((if result.Error ≠ none then result.Error
          else if result.RowsAffected = 0 then some ErrCarNotFound else none)
          = some ErrCarNotFound ↔ result.RowsAffected = 0) ∧
      (1 ≤ result.RowsAffected →
        (if result.Error ≠ none then result.Error
          else if result.RowsAffected = 0 then some ErrCarNotFound else none) = none)) := by
  refine ⟨?_, ?_⟩
  · intro err h
    simp [h]
  · intro h
    constructor
    · by_cases h0 : result.RowsAffected = 0 <;> simp [h, h0]
    · intro h1
      have h0 : result.RowsAffected ≠ 0 := by omega
      simp [h, h0]

/-- C21. For `Update` and `Delete` of the gateway: an error reported by the store is returned
unchanged; when the store reports none, the result is `ErrCarNotFound` exactly when the store
reports zero rows affected, and nil when it reports at least one row. -/
theorem gateway_Update_Delete_outcome {σ : Type} (db : gorm.DB σ) (car : entity.Car)
    (id : UUID) (s : σ) :
    (∀ err, (db.Updates car.ID car.Name car.EngineVersion s).1.Error = some err →
      ((NewCarRepository db).Update car s).1 = some err) ∧
    ((db.Updates car.ID car.Name car.EngineVersion s).1.Error = none →
      (((NewCarRepository db).Update car s).1 = some ErrCarNotFound ↔
        (db.Updates car.ID car.Name car.EngineVersion s).1.RowsAffected = 0) ∧
      (1 ≤ (db.Updates car.ID car.Name car.EngineVersion s).1.RowsAffected →
        ((NewCarRepository db).Update car s).1 = none)) ∧
    (∀ err, (db.Delete id s).1.Error = some err →
      ((NewCarRepository db).Delete id s).1 = some err) ∧
    ((db.Delete id s).1.Error = none →
      (((NewCarRepository db).Delete id s).1 = some ErrCarNotFound ↔
        (db.Delete id s).1.RowsAffected = 0) ∧
      (1 ≤ (db.Delete id s).1.RowsAffected →
        ((NewCarRepository db).Delete id s).1 = none)) ∧
    ((NewCarRepository (storeReporting { Error := none, RowsAffected := 0 })).Update
        hondaCivic ()).1 = some ErrCarNotFound ∧
    ((NewCarRepository (storeReporting { Error := none, RowsAffected := 1 })).Delete
        7 ()).1 = none ∧
    ((NewCarRepository (storeReporting
        { Error := some (.other "connection refused"), RowsAffected := 0 })).Delete
        7 ()).1 = some (.other "connection refused") := by
  rw [carRepository_Update_outcome, carRepository_Delete_outcome]
  exact ⟨(rows_outcome _).1, (rows_outcome _).2, (rows_outcome _).1, (rows_outcome _).2,
    rfl, rfl, rfl⟩

end gateway

/-! ## The middleware chain of the router (C22) -/

section routerChain

open gin.HandlerFunc

/-- C22 (counterexample). The chain `SetupRouter` registers is not the one with Rate Limiting
in seventh and Error Translation in eighth place: Error Translation is registered seventh
(index 6) and Rate Limiting eighth (index 7). -/
theorem SetupRouter_ErrorHandler_before_RateLimit :
    (router.SetupRouter sampleConfig).Handlers ≠
      [Recovery, RequestID, Logger, SecurityHeaders, CORS ["https://app.example.com"],
       RequestSizeLimit 1048576, RateLimit 100 60000000000, ErrorHandler] ∧
    (router.SetupRouter sampleConfig).Handlers[6]? = some ErrorHandler ∧
    (router.SetupRouter sampleConfig).Handlers[7]? = some (RateLimit 100 60000000000) := by
  decide

/-- C22 (amended). The chain `SetupRouter` registers is, in order: Recovery, Request-ID,
Access Logging, Security Headers, CORS with the configured origins, Body Size Limit of 1 MiB,
Error Translation, Rate Limiting of 100 requests per minute; Error Translation runs outside
Rate Limiting. -/
theorem SetupRouter_chain (cfg : config.Config) :
    (router.SetupRouter cfg).Handlers =
      [Recovery, RequestID, Logger, SecurityHeaders, CORS cfg.Server.AllowedOrigins,
       RequestSizeLimit 1048576, ErrorHandler, RateLimit 100 60000000000] := by
  simp [router.SetupRouter, gin.Engine.Use, gin.New, time.Minute]

end routerChain

/-! ## The request id (C24) -/

section requestID

open middleware

/-- C24. `RequestID` passes the request on with one id both stored under `request_id` and set
as the `X-Request-ID` response header: the inbound `X-Request-ID` when that is non-empty,
and otherwise the generated id, which is non-empty when `uuid.New().String()` is. -/
theorem RequestID_stores_and_echoes (generated : String) (hgen : generated ≠ "")
    (c : gin.Context) :
    ∃ id passed,
      (∀ next, RequestID generated next c = next passed) ∧
      passed.Get "request_id" = some id ∧
      passed.Writer.Get "X-Request-ID" = id ∧
      id ≠ "" ∧
      (c.GetHeader "X-Request-ID" ≠ "" → id = c.GetHeader "X-Request-ID") ∧
      (c.GetHeader "X-Request-ID" = "" → id = generated) := by
  refine ⟨if c.GetHeader "X-Request-ID" = "" then generated else c.GetHeader "X-Request-ID",
    _, fun next => rfl, ?_, ?_, ?_, ?_, ?_⟩
  · simp [gin.Context.Get, gin.Context.Set]
  · simp only [gin.Context.Set]
    exact Header_Get_Set_same _ _ _
  · split_ifs with h
    · exact hgen
    · exact h
  · intro h
    simp [h]
  · intro h
    simp [h]

/-- A request with an inbound id, with `generated-1` as the id that would be generated. -/
theorem RequestID_stores_and_echoes_witness :
    "generated-1" ≠ "" ∧
    ∃ id passed,
      (∀ next, RequestID "generated-1" next requestWithID = next passed) ∧
      passed.Get "request_id" = some id ∧
      passed.Writer.Get "X-Request-ID" = id ∧
      id ≠ "" ∧
      (requestWithID.GetHeader "X-Request-ID" ≠ "" →
        id = requestWithID.GetHeader "X-Request-ID") ∧
      (requestWithID.GetHeader "X-Request-ID" = "" → id = "generated-1") :=
  ⟨by decide, RequestID_stores_and_echoes "generated-1" (by decide) requestWithID⟩

end requestID

/-! ## The offset handed to the store (C28) -/

section offsetSign

open service repository

/-- After `SetDefaults`, the offset is non-negative whenever `(Page - 1) * PageSize` fits in
a Go `int`. -/
theorem GetOffset_nonneg_of_fits (p : dto.PaginationRequest) (hp : isInt64 p.Page)
    (hfit : (p.SetDefaults.Page - 1) * p.SetDefaults.PageSize < 2 ^ 63) :
    0 ≤ p.SetDefaults.GetOffset := by
  have hb := SetDefaults_bounds p
  have h1 : 1 ≤ p.SetDefaults.Page := hb.1
  have h2 : 1 ≤ p.SetDefaults.PageSize := hb.2.1
  have hP : p.SetDefaults.Page < 2 ^ 63 := by
    rw [SetDefaults_Page]
    unfold isInt64 at hp
    split_ifs <;> omega
  have hw : wrapInt64 (p.SetDefaults.Page - 1) = p.SetDefaults.Page - 1 :=
    wrapInt64_of_isInt64 ⟨by omega, by omega⟩
  have hprod : 0 ≤ (p.SetDefaults.Page - 1) * p.SetDefaults.PageSize :=
    mul_nonneg (by omega) (by omega)
  unfold dto.PaginationRequest.GetOffset
  rw [hw, wrapInt64_of_isInt64 ⟨by omega, hfit⟩]
  exact hprod

/-- C28. For the page number 9223372036854775807 with ten records per page, which
`SetDefaults` keeps, `GetOffset` is -20, and `FindAll` hands the store the offset -20. -/
theorem FindAll_negative_offset :
    isInt64 lastPage.Page ∧
    lastPage.SetDefaults.Page = 9223372036854775807 ∧
    lastPage.SetDefaults.PageSize = 10 ∧
    lastPage.SetDefaults.GetOffset = -20 ∧
    (GetAllCars formatNanos (NewCarRepository journalingStore) lastPage []).2
      = [("created_at DESC", 10, -20)] := by
  refine ⟨by decide, by decide, by decide, by decide, ?_⟩
  decide

end offsetSign
/-! ## The id-addressed handlers (C23) -/

section handlers

open handler

variable {σ : Type}

/-- The status the id-addressed handlers give to an error of the service. -/
theorem errorStatus_cases (marshal : response.Payload → String) (c : gin.Context)
    (notFound failure : String) (err : GoError) (s : σ) :
    ((if errors.Is err service.ErrCarNotFound = true then
        (response.NotFound marshal c notFound, s)
      else (response.InternalServerError marshal c failure, s)).1.Status
      = some (if errors.Is err service.ErrCarNotFound = true then 404 else 500)) ∧
    (if errors.Is err service.ErrCarNotFound = true then
        (response.NotFound marshal c notFound, s)
      else (response.InternalServerError marshal c failure, s)).2 = s := by
  split_ifs <;> exact ⟨rfl, rfl⟩

theorem GetCarByID_invalid_id (lib : Libraries) (h : CarHandler σ) (c : gin.Context) (s : σ)
    (e : GoError) (hparse : lib.uuidParse (c.Param "id") = .error e) :
    h.GetCarByID lib c s
      = (response.BadRequest lib.marshal c "Invalid car ID format" none, s) := by
  unfold CarHandler.GetCarByID
  simp only [hparse]

theorem UpdateCar_invalid_id (lib : Libraries) (h : CarHandler σ) (c : gin.Context) (s : σ)
    (e : GoError) (hparse : lib.uuidParse (c.Param "id") = .error e) :
    h.UpdateCar lib c s
      = (response.BadRequest lib.marshal c "Invalid car ID format" none, s) := by
  unfold CarHandler.UpdateCar
  simp only [hparse]

theorem DeleteCar_invalid_id (lib : Libraries) (h : CarHandler σ) (c : gin.Context) (s : σ)
    (e : GoError) (hparse : lib.uuidParse (c.Param "id") = .error e) :
    h.DeleteCar lib c s
      = (response.BadRequest lib.marshal c "Invalid car ID format" none, s) := by
  unfold CarHandler.DeleteCar
  simp only [hparse]

theorem GetCarByID_valid_id (lib : Libraries) (h : CarHandler σ) (c : gin.Context) (s : σ)
    (id : UUID) (hparse : lib.uuidParse (c.Param "id") = .ok id) :
    (h.GetCarByID lib c s).1.Status = some
      (match (h.carService.GetCarByID id s).1 with
       | .error err => if errors.Is err service.ErrCarNotFound = true then 404 else 500
       | .ok _ => 200) ∧
    (h.GetCarByID lib c s).2 = (h.carService.GetCarByID id s).2 := by
  unfold CarHandler.GetCarByID
  simp only [hparse]
  rcases h.carService.GetCarByID id s with ⟨err | car, s1⟩
  · exact errorStatus_cases lib.marshal c _ _ err s1
  · exact ⟨rfl, rfl⟩

theorem DeleteCar_valid_id (lib : Libraries) (h : CarHandler σ) (c : gin.Context) (s : σ)
    (id : UUID) (hparse : lib.uuidParse (c.Param "id") = .ok id) :
    (h.DeleteCar lib c s).1.Status = some
      (match (h.carService.DeleteCar id s).1 with
       | some err => if errors.Is err service.ErrCarNotFound = true then 404 else 500
       | none => 204) ∧
    (h.DeleteCar lib c s).2 = (h.carService.DeleteCar id s).2 ∧
    ((h.carService.DeleteCar id s).1 = none → (h.DeleteCar lib c s).1.Body = c.Body) := by
  unfold CarHandler.DeleteCar
  simp only [hparse]
  rcases h.carService.DeleteCar id s with ⟨_ | err, s1⟩
  · exact ⟨rfl, rfl, fun _ => rfl⟩
  · have hs := errorStatus_cases lib.marshal c "Car not found" "Failed to delete car" err s1
    exact ⟨hs.1, hs.2, fun hn => by cases hn⟩

theorem UpdateCar_bound (lib : Libraries) (h : CarHandler σ) (c : gin.Context) (s : σ)
    (id : UUID) (hparse : lib.uuidParse (c.Param "id") = .ok id)
    (req : dto.UpdateCarRequest) (hbind : lib.ShouldBindJSON c = .ok req) :
    (h.UpdateCar lib c s).1.Status = some
      (match (h.carService.UpdateCar id req s).1 with
       | .error err => if errors.Is err service.ErrCarNotFound = true then 404 else 500
       | .ok _ => 200) ∧
    (h.UpdateCar lib c s).2 = (h.carService.UpdateCar id req s).2 := by
  unfold CarHandler.UpdateCar
  simp only [hparse, hbind]
  rcases h.carService.UpdateCar id req s with ⟨err | car, s1⟩
  · exact errorStatus_cases lib.marshal c _ _ err s1
  · exact ⟨rfl, rfl⟩

theorem UpdateCar_unbound (lib : Libraries) (h : CarHandler σ) (c : gin.Context) (s : σ)
    (id : UUID) (hparse : lib.uuidParse (c.Param "id") = .ok id)
    (err : gin.BindingError) (hbind : lib.ShouldBindJSON c = .error err) :
    h.UpdateCar lib c s =
      (if formatValidationErrors err ≠ [] then
        response.UnprocessableEntity lib.marshal c "Validation failed"
          (some (.validationErrors (formatValidationErrors err)))
       else
        response.BadRequest lib.marshal c "Invalid request body"
          (some (.text (errorText err))), s) ∧
    (h.UpdateCar lib c s).1.Status
      = some (if formatValidationErrors err ≠ [] then 422 else 400) := by
  unfold CarHandler.UpdateCar
  simp only [hparse, hbind]
  split_ifs <;> exact ⟨rfl, rfl⟩

/-- C23 (counterexample). `UpdateCar` for the path id `7`, which parses, over a service whose
`UpdateCar` succeeds for every request, with a body whose `name` fails the `min=2` rule: the
status is 422, not 200, and the service is not invoked. -/
theorem UpdateCar_valid_id_invalid_body :
    (librariesBinding (.error nameTooShort)).uuidParse ((requestForCar "7").Param "id")
      = .ok 7 ∧
    (∀ req, ∃ car, (civicHandler.carService.UpdateCar 7 req 0).1 = .ok car) ∧
    (civicHandler.UpdateCar (librariesBinding (.error nameTooShort))
      (requestForCar "7") 0).1.Status = some 422 ∧
    (civicHandler.UpdateCar (librariesBinding (.error nameTooShort))
      (requestForCar "7") 0).2 = 0 := by
  refine ⟨rfl, ?_, rfl, rfl⟩
  intro req
  simp [civicHandler, NewCarHandler, service.NewCarService, service.UpdateCar, mockWith,
    mocks.MockCarRepository.repo, mocks.MockCarRepository.findByIDAnswer, errors.Is]

/-- C23 (amended). The status of the id-addressed handlers.  A path id that `uuid.Parse`
refuses gives 400 with the state of the service untouched, whatever the service is.  For an id
that parses, `GetCarByID` and `DeleteCar` invoke the service and give 404 for a result of
`ErrCarNotFound`, 500 for any other error, and on success 200, or 204 with nothing written to
the body for `DeleteCar`; `UpdateCar` does so when the body binds, and when it does not, gives
422 (validation errors) or 400 (any other binding error) without invoking the service. -/
theorem handlers_status_by_input (lib : Libraries) (h : CarHandler σ) (c : gin.Context)
    (s : σ) :
    (∀ e, lib.uuidParse (c.Param "id") = .error e →
      (response.BadRequest lib.marshal c "Invalid car ID format" none).Status = some 400 ∧
      h.GetCarByID lib c s
        = (response.BadRequest lib.marshal c "Invalid car ID format" none, s) ∧
      h.UpdateCar lib c s
        = (response.BadRequest lib.marshal c "Invalid car ID format" none, s) ∧
      h.DeleteCar lib c s
        = (response.BadRequest lib.marshal c "Invalid car ID format" none, s)) ∧
    (∀ id, lib.uuidParse (c.Param "id") = .ok id →
      ((h.GetCarByID lib c s).1.Status = some
          (match (h.carService.GetCarByID id s).1 with
           | .error err => if errors.Is err service.ErrCarNotFound = true then 404 else 500
           | .ok _ => 200) ∧
        (h.GetCarByID lib c s).2 = (h.carService.GetCarByID id s).2) ∧
      ((h.DeleteCar lib c s).1.Status = some
          (match (h.carService.DeleteCar id s).1 with
           | some err => if errors.Is err service.ErrCarNotFound = true then 404 else 500
           | none => 204) ∧
        (h.DeleteCar lib c s).2 = (h.carService.DeleteCar id s).2 ∧
        ((h.carService.DeleteCar id s).1 = none → (h.DeleteCar lib c s).1.Body = c.Body)) ∧
      (∀ req, lib.ShouldBindJSON c = .ok req →
        (h.UpdateCar lib c s).1.Status = some
          (match (h.carService.UpdateCar id req s).1 with
           | .error err => if errors.Is err service.ErrCarNotFound = true then 404 else 500
           | .ok _ => 200) ∧
        (h.UpdateCar lib c s).2 = (h.carService.UpdateCar id req s).2) ∧
      (∀ err, lib.ShouldBindJSON c = .error err →
        (h.UpdateCar lib c s).1.Status
          = some (if formatValidationErrors err ≠ [] then 422 else 400) ∧
        (h.UpdateCar lib c s).2 = s)) ∧
    (civicHandler.GetCarByID (librariesBinding (.ok { Name := "", EngineVersion := "" }))
      (requestForCar "not-a-uuid") 0).1.Status = some 400 ∧
    (civicHandler.GetCarByID (librariesBinding (.ok { Name := "", EngineVersion := "" }))
      (requestForCar "7") 0).1.Status = some 200 ∧
    (civicHandler.DeleteCar (librariesBinding (.ok { Name := "", EngineVersion := "" }))
      (requestForCar "7") 0).1 = { requestForCar "7" with Status := some 204 } ∧
    ((NewCarHandler (service.NewCarService formatNanos
        (failingMock repository.ErrCarNotFound).repo)).DeleteCar
      (librariesBinding (.ok { Name := "", EngineVersion := "" }))
      (requestForCar "7") 0).1.Status = some 404 ∧
    ((NewCarHandler (service.NewCarService formatNanos
        (failingMock (.other "connection refused")).repo)).UpdateCar
      (librariesBinding (.ok { Name := "Civic", EngineVersion := "" }))
      (requestForCar "7") 0).1.Status = some 500 := by
  refine ⟨?_, ?_, rfl, rfl, rfl, rfl, rfl⟩
  · intro e hparse
    exact ⟨rfl, GetCarByID_invalid_id lib h c s e hparse,
      UpdateCar_invalid_id lib h c s e hparse, DeleteCar_invalid_id lib h c s e hparse⟩
  · intro id hparse
    refine ⟨GetCarByID_valid_id lib h c s id hparse, DeleteCar_valid_id lib h c s id hparse,
      fun req hbind => UpdateCar_bound lib h c s id hparse req hbind, ?_⟩
    intro err hbind
    have hu := UpdateCar_unbound lib h c s id hparse err hbind
    refine ⟨hu.2, ?_⟩
    rw [hu.1]

end handlers
/-! ## The sweep is transparent (C27) -/

section sweep

open middleware

theorem Sub_mono_left {s t u w : Int} (hst : s ≤ t) (h : time.Sub s u > w) :
    time.Sub t u > w := by
  simp only [time.Sub, time.maxDuration, time.minDuration] at h ⊢
  omega

/-- The decision of `allow` for `ip` and the entry of `ip` after it depend on the limiter only
through the entry of `ip`, the rate and the window. -/
theorem allow_congr (rl1 rl2 : rateLimiter) (now : Int) (ip : String)
    (hv : rl1.visitors ip = rl2.visitors ip) (hr : rl1.rate = rl2.rate)
    (hw : rl1.window = rl2.window) :
    (rl1.allow now ip).1 = (rl2.allow now ip).1 ∧
    (rl1.allow now ip).2.visitors ip = (rl2.allow now ip).2.visitors ip := by
  unfold rateLimiter.allow
  rw [hv, hr, hw]
  rcases h2 : rl2.visitors ip with _ | v
  · simp
  · dsimp only
    split_ifs <;> simp [hv, h2]

/-- A request from an address without entry and one from an address whose entry is older than
the window are decided alike, and leave the same entry. -/
theorem allow_stale (rl1 rl2 : rateLimiter) (now : Int) (ip : String) (v : visitor)
    (h1 : rl1.visitors ip = none) (h2 : rl2.visitors ip = some v)
    (hold : time.Sub now v.lastSeen > rl2.window) :
    (rl1.allow now ip).1 = (rl2.allow now ip).1 ∧
    (rl1.allow now ip).2.visitors ip = (rl2.allow now ip).2.visitors ip := by
  unfold rateLimiter.allow
  rw [h1, h2]
  simp [hold]

theorem sweptAt_refl (s : Int) (rl : rateLimiter) : sweptAt s rl rl :=
  ⟨rfl, rfl, fun _ => Or.inl rfl⟩

theorem sweptAt_allow {s now : Int} {swept kept : rateLimiter} (ip : String)
    (h : sweptAt s swept kept) (hs : s ≤ now) :
    (swept.allow now ip).1 = (kept.allow now ip).1 ∧
    (swept.allow now ip).2.visitors ip = (kept.allow now ip).2.visitors ip ∧
    sweptAt s (swept.allow now ip).2 (kept.allow now ip).2 := by
  obtain ⟨hr, hw, hv⟩ := h
  have key : (swept.allow now ip).1 = (kept.allow now ip).1 ∧
      (swept.allow now ip).2.visitors ip = (kept.allow now ip).2.visitors ip := by
    rcases hv ip with heq | ⟨hnone, v, hsome, hold⟩
    · exact allow_congr swept kept now ip heq hr hw
    · exact allow_stale swept kept now ip v hnone hsome (Sub_mono_left hs hold)
  obtain ⟨s1, s2, -, -⟩ := allow_outcome swept now ip
  obtain ⟨k1, k2, -, -⟩ := allow_outcome kept now ip
  refine ⟨key.1, key.2, ?_, ?_, ?_⟩
  · rw [s2, k2, hr]
  · rw [s1, k1, hw]
  · intro k
    by_cases hk : k = ip
    · subst hk
      exact Or.inl key.2
    · have hk' : ip ≠ k := fun e => hk e.symm
      rw [(allow_other swept now hk').1, (allow_other kept now hk').1, k1]
      exact hv k

theorem sweptAt_cleanup {s now : Int} {swept kept : rateLimiter}
    (h : sweptAt s swept kept) (hs : s ≤ now) :
    sweptAt now (swept.cleanup now) kept := by
  obtain ⟨hr, hw, hv⟩ := h
  refine ⟨hr, hw, ?_⟩
  intro k
  obtain ⟨-, -, cn, cs⟩ := cleanup_outcome swept now k
  rcases hv k with heq | ⟨hnone, v, hsome, hold⟩
  · rcases hk : kept.visitors k with _ | v
    · left
      rw [hk] at heq
      exact cn heq
    · rw [hk] at heq
      rw [cs v heq]
      by_cases hold : time.Sub now v.lastSeen > swept.window
      · right
        rw [if_pos hold]
        exact ⟨rfl, v, rfl, hw ▸ hold⟩
      · left
        rw [if_neg hold]
  · right
    exact ⟨cn hnone, v, hsome, Sub_mono_left hs hold⟩

theorem sweptAt_mono {s t : Int} {swept kept : rateLimiter}
    (h : sweptAt s swept kept) (hs : s ≤ t) : sweptAt t swept kept := by
  obtain ⟨hr, hw, hv⟩ := h
  refine ⟨hr, hw, fun k => ?_⟩
  rcases hv k with heq | ⟨hnone, v, hsome, hold⟩
  · exact Or.inl heq
  · exact Or.inr ⟨hnone, v, hsome, Sub_mono_left hs hold⟩

theorem trace_sweptAt :
    ∀ (events : List Event) (s : Int) (swept kept : rateLimiter),
      sweptAt s swept kept → (∀ e ∈ events, s ≤ e.now) →
      events.Pairwise (fun e f => e.now ≤ f.now) →
      trace swept events = trace kept (events.filter Event.isRequest) := by
  intro events
  induction events with
  | nil => intro s swept kept _ _ _; rfl
  | cons e rest ih =>
    intro s swept kept h hs hp
    rw [List.pairwise_cons] at hp
    have hrest : ∀ f ∈ rest, s ≤ f.now := fun f hf => hs f (List.mem_cons_of_mem _ hf)
    cases e with
    | request now ip =>
      have hnow : s ≤ now := hs _ (List.mem_cons_self _ _)
      obtain ⟨a1, a2, a3⟩ := sweptAt_allow ip h hnow
      simp only [List.filter, Event.isRequest, trace]
      rw [a1, a2, ih s _ _ a3 hrest hp.2]
    | sweep now =>
      have hnow : s ≤ now := hs _ (List.mem_cons_self _ _)
      simp only [List.filter, Event.isRequest, trace]
      exact ih now _ _ (sweptAt_cleanup h hnow) (fun f hf => hp.1 f hf) hp.2

/-- C27. Along every run of requests and sweeps whose clock readings do not decrease, from
every limiter state, each request gets the decision, and leaves the entry (count and
timestamp) of its address, that it gets in the run without the sweeps. -/
theorem cleanup_transparent (rl : rateLimiter) (events : List Event)
    (hclock : events.Pairwise (fun e f => e.now ≤ f.now)) :
    trace rl events = trace rl (events.filter Event.isRequest) := by
  cases events with
  | nil => rfl
  | cons e rest =>
    refine trace_sweptAt (e :: rest) e.now rl rl (sweptAt_refl _ rl) ?_ hclock
    intro f hf
    rcases List.mem_cons.mp hf with rfl | hmem
    · exact le_refl _
    · exact (List.pairwise_cons.mp hclock).1 f hmem

/-- A run in which the sweep removes the entry of the requesting address. -/
theorem cleanup_transparent_witness :
    sweptRun.Pairwise (fun e f => e.now ≤ f.now) ∧
    ((newRateLimiter 2 60).step (.request 0 "10.0.0.1")).visitors "10.0.0.1"
      = some { lastSeen := 0, count := 1 } ∧
    ((((newRateLimiter 2 60).step (.request 0 "10.0.0.1")).step
        (.request 10 "10.0.0.1")).step (.sweep 100)).visitors "10.0.0.1" = none ∧
    trace (newRateLimiter 2 60) sweptRun
      = trace (newRateLimiter 2 60) (sweptRun.filter Event.isRequest) :=
  ⟨by decide, by decide, by decide,
    cleanup_transparent (newRateLimiter 2 60) sweptRun (by decide)⟩

end sweep
/-! ## At most `rate` allowed requests in an interval of one window (C26) -/

section windowBound

open middleware

/-- The four ways `allow` treats a request from `ip`: a new entry; an entry older than the
window, replaced; a full entry, the request rejected and nothing changed; an entry with room,
counted up. -/
theorem allow_entry (rl : rateLimiter) (now : Int) (ip : String) :
    (rl.visitors ip = none ∧ (rl.allow now ip).1 = true ∧
      (rl.allow now ip).2.visitors ip = some { lastSeen := now, count := 1 }) ∨
    (∃ v, rl.visitors ip = some v ∧ time.Sub now v.lastSeen > rl.window ∧
      (rl.allow now ip).1 = true ∧
      (rl.allow now ip).2.visitors ip = some { lastSeen := now, count := 1 }) ∨
    (∃ v, rl.visitors ip = some v ∧ ¬ time.Sub now v.lastSeen > rl.window ∧
      v.count ≥ rl.rate ∧ (rl.allow now ip).1 = false ∧ (rl.allow now ip).2 = rl) ∨
    (∃ v, rl.visitors ip = some v ∧ ¬ time.Sub now v.lastSeen > rl.window ∧
      ¬ v.count ≥ rl.rate ∧ (rl.allow now ip).1 = true ∧
      (rl.allow now ip).2.visitors ip
        = some { lastSeen := now, count := wrapInt64 (v.count + 1) }) := by
  unfold rateLimiter.allow
  rcases rl.visitors ip with _ | v
  · left
    simp
  · right
    dsimp only
    by_cases h1 : time.Sub now v.lastSeen > rl.window
    · left
      exact ⟨v, rfl, h1, by simp [h1], by simp [h1]⟩
    · right
      by_cases h2 : v.count ≥ rl.rate
      · left
        exact ⟨v, rfl, h1, h2, by simp [h1, h2], by simp [h1, h2]⟩
      · right
        exact ⟨v, rfl, h1, h2, by simp [h1, h2], by simp [h1, h2]⟩

theorem allowedCount_after (ip : String) (a b : Int) :
    ∀ (events : List Event) (rl : rateLimiter), (∀ e ∈ events, b < e.now) →
      allowedCount ip a b rl events = 0 := by
  intro events
  induction events with
  | nil => intro rl _; rfl
  | cons e rest ih =>
    intro rl h
    have hrest : ∀ f ∈ rest, b < f.now := fun f hf => h f (List.mem_cons_of_mem _ hf)
    have he := h e (List.mem_cons_self _ _)
    cases e with
    | request now addr =>
      simp only [Event.now] at he
      have hnb : ¬ now ≤ b := by omega
      simp only [allowedCount, ih _ hrest, hnb, and_false, if_false]
    | sweep now =>
      simp only [allowedCount]
      exact ih _ hrest

/-- An entry older than the window, at a clock reading not before it, whose last request lies
in an interval `[a, b]` no longer than the window, is met only after the interval. -/
theorem after_of_stale {now last w a b : Int} (hold : time.Sub now last > w)
    (hle : last ≤ now) (ha : a ≤ last) (hab : b - a ≤ w) : b < now := by
  by_contra hnot
  exact Sub_le_of_nonneg hle (by omega) hold

theorem allowedCount_budget (N W : Int) (hN : 1 ≤ N) (hN64 : isInt64 N) (ip : String)
    (a b : Int) (hab : b - a ≤ W) :
    ∀ (events : List Event) (rl : rateLimiter),
      rl.rate = N → rl.window = W →
      (∀ v, rl.visitors ip = some v →
        1 ≤ v.count ∧ v.count ≤ N ∧ ∀ e ∈ events, v.lastSeen ≤ e.now) →
      events.Pairwise (fun e f => e.now ≤ f.now) →
      (allowedCount ip a b rl events : Int) ≤ N ∧
      (∀ v, rl.visitors ip = some v → a ≤ v.lastSeen →
        (allowedCount ip a b rl events : Int) + v.count ≤ N) := by
  intro events
  induction events with
  | nil =>
    intro rl _ _ hinv _
    refine ⟨by simp only [allowedCount]; omega, ?_⟩
    intro v hv _
    have := (hinv v hv).2.1
    simp only [allowedCount]
    omega
  | cons e rest ih =>
    intro rl hr hw hinv hp
    rw [List.pairwise_cons] at hp
    obtain ⟨hfirst, hp'⟩ := hp
    cases e with
    | sweep now =>
      simp only [Event.now] at hfirst
      obtain ⟨cr, cw, cn, cs⟩ := cleanup_outcome rl now ip
      have hinv' : ∀ v, (rl.cleanup now).visitors ip = some v →
          1 ≤ v.count ∧ v.count ≤ N ∧ ∀ e ∈ rest, v.lastSeen ≤ e.now := by
        intro v hv
        rcases h0 : rl.visitors ip with _ | v0
        · rw [cn h0] at hv
          cases hv
        · rw [cs v0 h0] at hv
          split_ifs at hv
          cases hv
          obtain ⟨i1, i2, i3⟩ := hinv v h0
          exact ⟨i1, i2, fun e he => i3 e (List.mem_cons_of_mem _ he)⟩
      obtain ⟨ih1, ih2⟩ := ih (rl.cleanup now) (cr.trans hr) (cw.trans hw) hinv' hp'
      simp only [allowedCount]
      refine ⟨ih1, ?_⟩
      intro v hv ha
      obtain ⟨i1, i2, i3⟩ := hinv v hv
      by_cases hold : time.Sub now v.lastSeen > rl.window
      · have hlast : v.lastSeen ≤ now := i3 _ (List.mem_cons_self _ _)
        have hb : b < now := after_of_stale hold hlast ha (hw ▸ hab)
        rw [allowedCount_after ip a b rest _ (fun f hf => lt_of_lt_of_le hb (hfirst f hf))]
        simp only [Nat.cast_zero]
        omega
      · have hkeep : (rl.cleanup now).visitors ip = some v := by
          rw [cs v hv, if_neg hold]
        exact ih2 v hkeep ha
    | request now addr =>
      simp only [Event.now] at hfirst
      obtain ⟨ow, orate, -, -⟩ := allow_outcome rl now addr
      by_cases haddr : addr = ip
      · subst haddr
        have hcast : ∀ (p : Prop) [Decidable p],
            (((if p then 1 else 0 : Nat) + allowedCount addr a b (rl.allow now addr).2 rest
              : Nat) : Int)
            = (if p then 1 else 0) + (allowedCount addr a b (rl.allow now addr).2 rest : Int) := by
          intro p _
          split_ifs <;> simp
        simp only [allowedCount, hcast]
        rcases allow_entry rl now addr with
          ⟨h0, hd, hent⟩ | ⟨v, h0, hold, hd, hent⟩ | ⟨v, h0, hfresh, hfull, hd, hsame⟩ |
          ⟨v, h0, hfresh, hroom, hd, hent⟩
        · -- a new entry
          have hinv' : ∀ v, (rl.allow now addr).2.visitors addr = some v →
              1 ≤ v.count ∧ v.count ≤ N ∧ ∀ e ∈ rest, v.lastSeen ≤ e.now := by
            intro v hv
            rw [hent] at hv
            cases hv
            exact ⟨le_refl _, hN, hfirst⟩
          obtain ⟨ih1, ih2⟩ := ih _ (orate.trans hr) (ow.trans hw) hinv' hp'
          have ih2' := ih2 _ hent
          simp only at ih2'
          refine ⟨?_, ?_⟩
          · split_ifs with hc
            · have := ih2' hc.2.2.1
              omega
            · omega
          · intro v hv
            rw [h0] at hv
            cases hv
        · -- an entry older than the window
          have hinv' : ∀ v, (rl.allow now addr).2.visitors addr = some v →
              1 ≤ v.count ∧ v.count ≤ N ∧ ∀ e ∈ rest, v.lastSeen ≤ e.now := by
            intro v' hv
            rw [hent] at hv
            cases hv
            exact ⟨le_refl _, hN, hfirst⟩
          obtain ⟨ih1, ih2⟩ := ih _ (orate.trans hr) (ow.trans hw) hinv' hp'
          have ih2' := ih2 _ hent
          simp only at ih2'
          refine ⟨?_, ?_⟩
          · split_ifs with hc
            · have := ih2' hc.2.2.1
              omega
            · omega
          · intro v' hv ha
            rw [h0] at hv
            cases hv
            obtain ⟨i1, i2, i3⟩ := hinv v h0
            have hlast : v.lastSeen ≤ now := i3 _ (List.mem_cons_self _ _)
            have hb : b < now := after_of_stale hold hlast ha (hw ▸ hab)
            rw [allowedCount_after addr a b rest _
              (fun f hf => lt_of_lt_of_le hb (hfirst f hf))]
            have hnb : ¬ now ≤ b := by omega
            simp only [hnb, and_false, if_false, Nat.cast_zero]
            omega
        · -- a full entry
          have hinv' : ∀ v, (rl.allow now addr).2.visitors addr = some v →
              1 ≤ v.count ∧ v.count ≤ N ∧ ∀ e ∈ rest, v.lastSeen ≤ e.now := by
            intro v' hv
            rw [hsame] at hv
            obtain ⟨i1, i2, i3⟩ := hinv v' hv
            exact ⟨i1, i2, fun e he => i3 e (List.mem_cons_of_mem _ he)⟩
          obtain ⟨ih1, ih2⟩ := ih _ (orate.trans hr) (ow.trans hw) hinv' hp'
          simp only [hd, Bool.false_eq_true, false_and, and_false, if_false, zero_add]
          refine ⟨ih1, ?_⟩
          intro v' hv ha
          exact ih2 v' (by rw [hsame]; exact hv) ha
        · -- an entry with room
          obtain ⟨i1, i2, i3⟩ := hinv v h0
          have hlt : v.count < N := by rw [hr] at hroom; omega
          have hwrap : wrapInt64 (v.count + 1) = v.count + 1 := by
            apply wrapInt64_of_isInt64
            unfold isInt64 at hN64 ⊢
            omega
          rw [hwrap] at hent
          have hinv' : ∀ v', (rl.allow now addr).2.visitors addr = some v' →
              1 ≤ v'.count ∧ v'.count ≤ N ∧ ∀ e ∈ rest, v'.lastSeen ≤ e.now := by
            intro v' hv
            rw [hent] at hv
            cases hv
            exact ⟨by simp only; omega, by simp only; omega, hfirst⟩
          obtain ⟨ih1, ih2⟩ := ih _ (orate.trans hr) (ow.trans hw) hinv' hp'
          have ih2' := ih2 _ hent
          simp only at ih2'
          refine ⟨?_, ?_⟩
          · split_ifs with hc
            · have := ih2' hc.2.2.1
              omega
            · omega
          · intro v' hv ha
            rw [h0] at hv
            cases hv
            have hlast : v.lastSeen ≤ now := i3 _ (List.mem_cons_self _ _)
            have := ih2' (le_trans ha hlast)
            split_ifs <;> omega
      · have hother := (allow_other rl now haddr).1
        have hinv' : ∀ v, (rl.allow now addr).2.visitors ip = some v →
            1 ≤ v.count ∧ v.count ≤ N ∧ ∀ e ∈ rest, v.lastSeen ≤ e.now := by
          intro v hv
          rw [hother] at hv
          obtain ⟨i1, i2, i3⟩ := hinv v hv
          exact ⟨i1, i2, fun e he => i3 e (List.mem_cons_of_mem _ he)⟩
        obtain ⟨ih1, ih2⟩ := ih _ (orate.trans hr) (ow.trans hw) hinv' hp'
        simp only [allowedCount, haddr, false_and, if_false, zero_add]
        refine ⟨ih1, ?_⟩
        intro v hv ha
        exact ih2 v (by rw [hother]; exact hv) ha

/-- C26. A limiter with rate `N ≥ 1` and window `W`, started empty and met by requests and
sweeps whose clock readings do not decrease, allows at most `N` requests of one address at
times in an interval `[a, b]` of length at most `W`. -/
theorem allowed_in_window_le_rate (N W : Int) (hN : 1 ≤ N) (hN64 : isInt64 N) (ip : String)
    (a b : Int) (hab : b - a ≤ W) (events : List Event)
    (hclock : events.Pairwise (fun e f => e.now ≤ f.now)) :
    (allowedCount ip a b (newRateLimiter N W) events : Int) ≤ N :=
  (allowedCount_budget N W hN hN64 ip a b hab events (newRateLimiter N W) rfl rfl
    (fun v hv => by cases hv) hclock).1

/-- A rate of 2 in a window of 60: of the five requests of `10.0.0.1` at the times 0, 10, 20,
61 and 70, three fall in the interval from 0 to 60, and two of those are allowed. -/
theorem allowed_in_window_le_rate_witness :
    (1 : Int) ≤ 2 ∧ isInt64 2 ∧ (60 : Int) - 0 ≤ 60 ∧
    busyRun.Pairwise (fun e f => e.now ≤ f.now) ∧
    allowedCount "10.0.0.1" 0 60 (newRateLimiter 2 60) busyRun = 2 ∧
    (allowedCount "10.0.0.1" 0 60 (newRateLimiter 2 60) busyRun : Int) ≤ 2 :=
  ⟨by decide, by decide, by decide, by decide, by decide,
    allowed_in_window_le_rate 2 60 (by decide) (by decide) "10.0.0.1" 0 60 (by decide)
      busyRun (by decide)⟩

end windowBound
